import Mathlib

/-!
Verification development for the AutoAssist portal's two core components:
the asynchronous webhook dispatcher with retry (src/routes/webhook_routes.py)
and inbound-payload ticket reconciliation (src/routes/ai_routes.py,
src/routes/ticket_routes.py).  Python functions are shallowly embedded as
executable Lean definitions; document-store operations that live outside the
embedded sources are modelled from the specification's semantic contract.
-/

namespace AutoAssist

/-! ## Character classes of the ticket-id regular expressions

`ai_routes.py` compiles `str` patterns with `re.IGNORECASE` only, so the
classes carry Python 3's Unicode semantics: `\d` matches every Unicode
decimal digit (category Nd), `\s` the Unicode whitespace set, and `[A-Z]`
under `IGNORECASE` matches a character whose simple lowercase mapping falls
in `a`-`z` (ASCII letters, U+0130, U+212A) plus CPython's `sre` ignorecase
equivalences for `i`, `s`, `k` (U+0131, U+017F, U+212A).  Characters are
compared through `Char.toNat`. -/

/-- `[A-Z]` with `re.IGNORECASE` on `str`: CPython lowers the range bounds
and the input character (simple lowercase, mapping U+0130 to `i` and U+212A
to `k`) and extends the set by the ignorecase equivalences keyed on `i`,
`s`, `k` — so besides the ASCII letters exactly U+0130 (LATIN CAPITAL LETTER
I WITH DOT ABOVE), U+0131 (DOTLESS I), U+017F (LONG S) and U+212A (KELVIN
SIGN) match. -/
def isLetterIC (c : Char) : Bool :=
  (65 ≤ c.toNat && c.toNat ≤ 90) || (97 ≤ c.toNat && c.toNat ≤ 122) ||
  c.toNat = 0x130 || c.toNat = 0x131 || c.toNat = 0x17F || c.toNat = 0x212A

/-- First code point of each run of ten consecutive Unicode decimal digits
(category Nd, Unicode 15.0 as shipped with CPython 3.12; older interpreters
lack the last few scripts, which no claim here depends on). -/
def ndStarts : List Nat :=
  [0x0030, 0x0660, 0x06F0, 0x07C0, 0x0966, 0x09E6, 0x0A66, 0x0AE6, 0x0B66,
   0x0BE6, 0x0C66, 0x0CE6, 0x0D66, 0x0DE6, 0x0E50, 0x0ED0, 0x0F20, 0x1040,
   0x1090, 0x17E0, 0x1810, 0x1946, 0x19D0, 0x1A80, 0x1A90, 0x1B50, 0x1BB0,
   0x1C40, 0x1C50, 0xA620, 0xA8D0, 0xA900, 0xA9D0, 0xA9F0, 0xAA50, 0xABF0,
   0xFF10, 0x104A0, 0x10D30, 0x11066, 0x110F0, 0x11136, 0x111D0, 0x112F0,
   0x11450, 0x114D0, 0x11650, 0x116C0, 0x11730, 0x118E0, 0x11950, 0x11C50,
   0x11D50, 0x11DA0, 0x11F50, 0x16A60, 0x16AC0, 0x16B50, 0x1D7CE, 0x1D7D8,
   0x1D7E2, 0x1D7EC, 0x1D7F6, 0x1E140, 0x1E2F0, 0x1E4F0, 0x1E950, 0x1FBF0]

/-- `\d` on a `str` pattern: any Unicode decimal digit. -/
def isDigitC (c : Char) : Bool :=
  ndStarts.any (fun s => s ≤ c.toNat && c.toNat ≤ s + 9)

/-- `\s` on a `str` pattern: the Unicode whitespace set (space, tab,
LF, VT, FF, CR, the separators `\x1c`-`\x1f`, `\x85`, `\xa0`, U+1680,
U+2000-U+200A, U+2028, U+2029, U+202F, U+205F, U+3000). -/
def isSpaceC (c : Char) : Bool :=
  (9 ≤ c.toNat && c.toNat ≤ 13) || (28 ≤ c.toNat && c.toNat ≤ 32) ||
  c.toNat = 0x85 || c.toNat = 0xA0 || c.toNat = 0x1680 ||
  (0x2000 ≤ c.toNat && c.toNat ≤ 0x200A) ||
  c.toNat = 0x2028 || c.toNat = 0x2029 || c.toNat = 0x202F ||
  c.toNat = 0x205F || c.toNat = 0x3000

def isColonOrSpace (c : Char) : Bool := c.toNat = 58 || isSpaceC c

def isHashC (c : Char) : Bool := c.toNat = 35

/-- CPython `sre` simple lowercasing of an input code point, as far as it can
reach the pattern alphabet used here (lowercase ASCII letters and `#`):
ASCII uppercase drops by 32, U+0130 lowers to `i`, U+212A lowers to `k`;
every other relevant code point is its own lowercase. -/
def sreLowerLit (n : Nat) : Nat :=
  if 65 ≤ n ∧ n ≤ 90 then n + 32
  else if n = 0x130 then 0x69
  else if n = 0x212A then 0x6B
  else n

/-- One literal pattern character under `IGNORECASE`: the lowered input must
equal the (lowercase) pattern character, or be one of `sre`'s ignorecase
equivalences for `i`, `s`, `k`. -/
def litCharMatch (p c : Char) : Bool :=
  p.toNat = sreLowerLit c.toNat ||
  (p.toNat = 0x69 && c.toNat = 0x131) ||
  (p.toNat = 0x73 && c.toNat = 0x17F) ||
  (p.toNat = 0x6B && c.toNat = 0x212A)

/-! ## A small backtracking regex engine

Each of the four patterns in `extract_ticket_id_from_body` is a flat sequence
of case-insensitive literals and greedily quantified character classes, with
the single capture group `([A-Z]{1,3}\d{3,6})` as a suffix.  The engine below
implements exactly Python `re.search` semantics for this fragment: leftmost
starting position wins, and within one position alternatives are explored
depth first with greedy quantifiers trying longer matches first. -/

inductive Tok where
  | lit : List Char → Tok
  | cls : (Char → Bool) → Nat → Option Nat → Tok

/-- Match a case-insensitive literal at the head of the text, returning the
remaining text on success. -/
def litMatch : List Char → List Char → Option (List Char)
  | [], s => some s
  | _ :: _, [] => none
  | p :: ps, c :: cs => if litCharMatch p c then litMatch ps cs else none

/-- Length of the maximal run of characters satisfying `p` at the head. -/
def clsRun (p : Char → Bool) : List Char → Nat
  | [] => 0
  | c :: cs => if p c then clsRun p cs + 1 else 0

/-- Remainders a greedy `p{mn,mx}` quantifier can leave, in the order a
backtracking engine tries them (longest consumed first). -/
def clsCandidates (p : Char → Bool) (mn : Nat) (mx : Option Nat) (s : List Char) :
    List (List Char) :=
  let run := clsRun p s
  let hi := match mx with
    | none => run
    | some m => Nat.min m run
  (List.range (hi + 1 - mn)).map (fun i => s.drop (hi - i))

/-- All remainders after matching a token sequence at the head of `s`, in
backtracking priority order. -/
def matchToks : List Tok → List Char → List (List Char)
  | [], s => [s]
  | Tok.lit l :: ts, s =>
    match litMatch l s with
    | none => []
    | some r => matchToks ts r
  | Tok.cls p mn mx :: ts, s =>
    (clsCandidates p mn mx s).flatMap (fun r => matchToks ts r)

/-- Given the remainders left by the part of the pattern before the capture
group, return the text consumed by the group for the first remainder where the
group matches. -/
def firstGroup (grp : List Tok) : List (List Char) → Option (List Char)
  | [] => none
  | r :: rest =>
    match (matchToks grp r).head? with
    | some r2 => some (r.take (r.length - r2.length))
    | none => firstGroup grp rest

/-- Anchored match of `pre ++ grp` at the head of `s`, returning the capture. -/
def matchAt (pre grp : List Tok) (s : List Char) : Option (List Char) :=
  firstGroup grp (matchToks pre s)

/-- `re.search`: try every start position left to right. -/
def reSearch (pre grp : List Tok) : List Char → Option (List Char)
  | [] => matchAt pre grp []
  | c :: rest =>
    match matchAt pre grp (c :: rest) with
    | some g => some g
    | none => reSearch pre grp rest

/-! ## The four patterns of `extract_ticket_id_from_body` -/

/-- The shared capture group `([A-Z]{1,3}\d{3,6})`. -/
def grpToks : List Tok :=
  [Tok.cls isLetterIC 1 (some 3), Tok.cls isDigitC 3 (some 6)]

/-- Pattern `ticket\s*#?\s*(...)`, part before the group. -/
def pat1pre : List Tok :=
  [Tok.lit ['t', 'i', 'c', 'k', 'e', 't'], Tok.cls isSpaceC 0 none,
   Tok.cls isHashC 0 (some 1), Tok.cls isSpaceC 0 none]

/-- Pattern `ticket\s+id[:\s]+(...)`, part before the group. -/
def pat2pre : List Tok :=
  [Tok.lit ['t', 'i', 'c', 'k', 'e', 't'], Tok.cls isSpaceC 1 none,
   Tok.lit ['i', 'd'], Tok.cls isColonOrSpace 1 none]

/-- Pattern `regarding\s+ticket\s*#?\s*(...)`, part before the group. -/
def pat3pre : List Tok :=
  [Tok.lit ['r', 'e', 'g', 'a', 'r', 'd', 'i', 'n', 'g'], Tok.cls isSpaceC 1 none,
   Tok.lit ['t', 'i', 'c', 'k', 'e', 't'], Tok.cls isSpaceC 0 none,
   Tok.cls isHashC 0 (some 1), Tok.cls isSpaceC 0 none]

/-- Pattern `#(...)`, part before the group. -/
def pat4pre : List Tok :=
  [Tok.lit ['#']]

/-- Try the four patterns in source order, first match wins. -/
def extractCore (s : List Char) : Option (List Char) :=
  (reSearch pat1pre grpToks s) <|> (reSearch pat2pre grpToks s) <|>
    (reSearch pat3pre grpToks s) <|> (reSearch pat4pre grpToks s)

/-- `str.upper`, restricted to the alphabet the capture group can contain
(letters of the `[A-Z]`-IGNORECASE class and Unicode decimal digits): ASCII
lowercase rises by 32, U+0131 uppercases to `I`, U+017F to `S`; U+0130,
U+212A and every decimal digit are unchanged.  (No character of that
alphabet has a multi-character uppercase expansion.) -/
def pyUpperChar (c : Char) : Char :=
  if 97 ≤ c.toNat && c.toNat ≤ 122 then Char.ofNat (c.toNat - 32)
  else if c.toNat = 0x131 then 'I'
  else if c.toNat = 0x17F then 'S'
  else c

/-- `extract_ticket_id_from_body` (src/routes/ai_routes.py, lines 20-45).
`none` models Python `None`; the guard `if not body` also rejects the empty
string. -/
def extract_ticket_id_from_body (body : Option String) : Option String :=
  match body with
  | none => none
  | some b =>
    if b.data.isEmpty then none
    else (extractCore b.data).map (fun g => String.mk (g.map pyUpperChar))

/-! ## Webhook dispatcher (src/routes/webhook_routes.py)

`_trigger_tech_director_webhook_async` starts a daemon thread running
`webhook_worker`; the worker writes `pending` into the in-memory status map,
then makes up to `max_retries` POST attempts, sleeping `retry_delay` inside
the `except` branch only, and finally records `success` or `failed`.

The worker is embedded as the trace of observable events it performs, as a
function of the outcome of each POST attempt (an HTTP response code, or an
exception — which also covers timeouts). -/

/-- Outcome of one `requests.post` call: a response with a status code, or a
raised exception (timeouts raise `requests.exceptions.Timeout`). -/
inductive WOutcome where
  | http : Nat → WOutcome
  | exc : WOutcome
deriving DecidableEq

/-- Observable events of the referral handler and the webhook worker. -/
inductive Ev where
  | dbGetTicket : String → Ev
  | dbUpdateTicket : String → List String → Ev
  | spawnWorker : Ev
  | mapWrite : String → Ev
  | post : Nat → Ev
  | sleep : Nat → Ev
deriving DecidableEq

def max_retries : Nat := 3

def retry_delay : Nat := 2

def webhook_timeout : Nat := 30

/-- The `for attempt in range(max_retries)` loop of `webhook_worker`
(webhook_routes.py lines 253-279).  `rem` is the number of loop iterations
left (`max_retries - attempt`).  On HTTP 200 the worker records `success`
and returns; on any other response code it loops again immediately; on an
exception it sleeps `retry_delay`, but only when this is not the final
attempt.  After the loop it records `failed`. -/
def webhook_worker_loop (out : Nat → WOutcome) : Nat → Nat → List Ev
  | _, 0 => [Ev.mapWrite "failed"]
  | attempt, rem + 1 =>
    Ev.post webhook_timeout ::
      match out attempt with
      | WOutcome.http code =>
        if code = 200 then [Ev.mapWrite "success"]
        else webhook_worker_loop out (attempt + 1) rem
      | WOutcome.exc =>
        (if attempt < max_retries - 1 then [Ev.sleep retry_delay] else []) ++
          webhook_worker_loop out (attempt + 1) rem

/-- Full event trace of `webhook_worker`: the `pending` write is the worker's
first action, executed on the background thread after the trigger function
has already returned. -/
def webhook_worker (out : Nat → WOutcome) : List Ev :=
  Ev.mapWrite "pending" :: webhook_worker_loop out 0 max_retries

/-- Event trace of `refer_to_tech_director` (webhook_routes.py lines 34-76)
on the authenticated, ticket-found path: fetch the ticket, commit the status
mutation to the document store, then spawn the dispatch worker and return. -/
def refer_to_tech_director_trace (ticket_id : String) : List Ev :=
  [Ev.dbGetTicket ticket_id,
   Ev.dbUpdateTicket ticket_id ["status", "referred_at", "referred_by"],
   Ev.spawnWorker]

/-- State of the `_webhook_status` entry for the ticket after a list of
events: only `mapWrite` events touch it (all map accesses hold
`_webhook_lock`, so they are atomic). -/
def runMapFrom (st : Option String) (tr : List Ev) : Option String :=
  tr.foldl
    (fun acc e =>
      match e with
      | Ev.mapWrite s => some s
      | _ => acc)
    st

def runMap (tr : List Ev) : Option String := runMapFrom none tr

/-- `get_webhook_status` (webhook_routes.py lines 79-92): reads the map entry
under the lock, defaulting to `unknown` when absent. -/
def get_webhook_status_view (st : Option String) : String := st.getD "unknown"

/-- Status observed by a `get_webhook_status` call interleaved after the
first `i` events of the worker trace (`i = 0`: the query runs after the
trigger returned but before the background thread performed any action). -/
def queryAt (tr : List Ev) (i : Nat) : String :=
  get_webhook_status_view (runMap (tr.take i))

def isPost (e : Ev) : Bool :=
  match e with
  | Ev.post _ => true
  | _ => false

def isSleep (e : Ev) : Bool :=
  match e with
  | Ev.sleep _ => true
  | _ => false

def isDbWrite (e : Ev) : Bool :=
  match e with
  | Ev.dbUpdateTicket _ _ => true
  | _ => false

def isMapWrite (e : Ev) : Bool :=
  match e with
  | Ev.mapWrite _ => true
  | _ => false

def countPosts (tr : List Ev) : Nat := tr.countP isPost

def countSleeps (tr : List Ev) : Nat := tr.countP isSleep

/-- Final recorded status of a dispatch (the map entry once the worker trace
has run to completion). -/
def finalStatus (out : Nat → WOutcome) : String :=
  get_webhook_status_view (runMap (webhook_worker out))

/-- Suffix of a trace starting at its first `post` event. -/
def dropToPost : List Ev → Option (List Ev)
  | [] => none
  | Ev.post t :: rest => some (Ev.post t :: rest)
  | _ :: rest => dropToPost rest

/-- Suffix of a trace starting at its `k`-th `post` event (0-based). -/
def kthPostSuffix : Nat → List Ev → Option (List Ev)
  | 0, tr => dropToPost tr
  | k + 1, tr =>
    match dropToPost tr with
    | some (_ :: rest) => kthPostSuffix k rest
    | _ => none

/-- The event the worker performs immediately after its `k`-th POST attempt
completes (0-based attempt index). -/
def afterKthPost (tr : List Ev) (k : Nat) : Option Ev :=
  match kthPostSuffix k tr with
  | some (_ :: e :: _) => some e
  | _ => none

/-! ## Document-store model for reconciliation

The `database` module is not part of the embedded sources; its operations are
modelled from the specification's semantic contract (§6).  Timestamp-valued
fields irrelevant to the claims (`updated_at`, `last_reply_at`,
`referred_at`) are omitted from the record state; `created_at` is kept as an
abstract `Nat` instant because the email fallback sorts by it. -/

structure Ticket where
  ticket_id : String
  thread_id : String
  email : String
  status : String
  draft : String
  n8n_draft : String
  has_unread_reply : Bool
  created_at : Nat
deriving DecidableEq

structure Reply where
  ticket_id : String
  message : String
  sender_name : String
  sender_email : String
  sender_type : String
  is_customer : Bool
deriving DecidableEq

structure DB where
  tickets : List Ticket
  replies : List Reply
deriving DecidableEq

/-- Modelled from the spec: `find_ticket_by_code(code) -> Ticket | None`
(`db.get_ticket_by_id`). -/
def get_ticket_by_id (db : DB) (tid : String) : Option Ticket :=
  db.tickets.find? (fun t => t.ticket_id == tid)

/-- One step of selecting the most recently created ticket. -/
def pickLatest (acc : Option Ticket) (t : Ticket) : Option Ticket :=
  match acc with
  | none => some t
  | some b => if b.created_at < t.created_at then some t else some b

/-- Modelled from the spec: `find_latest_ticket_by_email(email)`, the ai
route's `db.tickets.find(.email.).sort("created_at", -1).limit(1)`: among the
tickets with exactly this email address, one with maximal `created_at`. -/
def latest_ticket_by_email (db : DB) (e : String) : Option Ticket :=
  (db.tickets.filter (fun t => t.email == e)).foldl pickLatest none

/-- Modelled from the spec: `insert_reply(record) -> id` (`db.create_reply`),
append-only. -/
def create_reply (db : DB) (r : Reply) : DB :=
  { db with replies := db.replies ++ [r] }

/-- The partial field set passed to `db.update_ticket`. -/
structure TicketUpd where
  status : Option String
  draft : Option String
  n8n_draft : Option String
  has_unread_reply : Option Bool
deriving DecidableEq

def applyUpd (u : TicketUpd) (t : Ticket) : Ticket :=
  { t with
    status := u.status.getD t.status
    draft := u.draft.getD t.draft
    n8n_draft := u.n8n_draft.getD t.n8n_draft
    has_unread_reply := u.has_unread_reply.getD t.has_unread_reply }

def update_first (tid : String) (u : TicketUpd) : List Ticket → List Ticket × Nat
  | [] => ([], 0)
  | t :: ts =>
    if t.ticket_id == tid then (applyUpd u t :: ts, 1)
    else
      let rest := update_first tid u ts
      (t :: rest.1, rest.2)

/-- Modelled from the spec: `update_ticket(code, partial_fields)`, a Mongo
`update_one` on the ticket code: the first matching record is updated and the
result carries `matched_count`. -/
def update_ticket (db : DB) (tid : String) (u : TicketUpd) : DB × Nat :=
  let r := update_first tid u db.tickets
  ({ db with tickets := r.1 }, r.2)

/-! ## `display_response` (src/routes/ai_routes.py, lines 48-177, POST path)

The inbound JSON payload is modelled with one `Option String` field per key
the handler reads (`none` = key absent; `data.get(k, d)` chains become
`Option.getD` chains).  Besides the final store and HTTP response, the
embedding returns the ordered list of document-store mutations the handler
issued, which is what the temporal claims are about. -/

structure Payload where
  ticket_id : Option String
  ai_response : Option String
  draft : Option String
  body : Option String
  message : Option String
  customer_message : Option String
  from_addr : Option String
  customer_email : Option String
  name : Option String
deriving DecidableEq

inductive DbEv where
  | evCreateReply : Reply → DbEv
  | evUpdateTicket : String → TicketUpd → DbEv
deriving DecidableEq

structure Resp where
  success : Bool
  message : String
  ticket_id : Option String
  customer_reply_saved : Option Bool
  http_code : Nat
deriving DecidableEq

def payload_original (p : Payload) : String := p.ticket_id.getD ""

def payload_ai (p : Payload) : String := p.ai_response.getD (p.draft.getD "")

def payload_body (p : Payload) : String := p.body.getD (p.message.getD "")

def payload_email (p : Payload) : String :=
  p.from_addr.getD (p.customer_email.getD "")

def payload_customer_message (p : Payload) : String :=
  p.customer_message.getD (p.body.getD (p.message.getD ""))

/-- `extracted_ticket_id or original_ticket_id` (Python `or`: `None` and the
empty string are falsy; an extracted id is never empty). -/
def payload_tid0 (p : Payload) : String :=
  match extract_ticket_id_from_body (some (payload_body p)) with
  | some e => if e.isEmpty then payload_original p else e
  | none => payload_original p

/-- Truthiness of the extracted id, as used in the `original_ticket_id`
retry condition. -/
def extractedTruthy (p : Payload) : Bool :=
  match extract_ticket_id_from_body (some (payload_body p)) with
  | some e => !e.isEmpty
  | none => false

/-- Id-based ticket resolution (ai_routes.py lines 86-94): look up the
extracted-or-claimed id; if that missed and both an extracted id and a
claimed id exist, retry with the claimed id. -/
def resolve_stage1 (db : DB) (p : Payload) : Option Ticket × String :=
  match get_ticket_by_id db (payload_tid0 p) with
  | some t => (some t, payload_tid0 p)
  | none =>
    if extractedTruthy p && !(payload_original p).isEmpty then
      match get_ticket_by_id db (payload_original p) with
      | some t => (some t, payload_original p)
      | none => ((none : Option Ticket), payload_tid0 p)
    else ((none : Option Ticket), payload_tid0 p)

/-- Ticket resolution (ai_routes.py lines 86-105): the id-based lookups of
`resolve_stage1`, then the email fallback to the most recent ticket with the
sender's exact email address.  Returns the resolved ticket (if any) and the
final `ticket_id` variable. -/
def resolve_ticket (db : DB) (p : Payload) : Option Ticket × String :=
  match resolve_stage1 db p with
  | (some t, tid) => (some t, tid)
  | (none, tid) =>
    if !(payload_email p).isEmpty then
      match latest_ticket_by_email db (payload_email p) with
      | some t => (some t, t.ticket_id)
      | none => ((none : Option Ticket), tid)
    else ((none : Option Ticket), tid)

/-- The reply record `display_response` builds for a resolved ticket (the
`reply_data` dictionary of ai_routes.py lines 115-124, with `cmsg` the
customer message and `cemail` the sender address). -/
def mkReply (p : Payload) (tid : String) : Reply :=
  { ticket_id := tid, message := payload_customer_message p,
    sender_name := p.name.getD (payload_email p),
    sender_email := payload_email p, sender_type := "customer",
    is_customer := true }

def statusUpd : TicketUpd :=
  { status := some "Customer Replied", draft := none, n8n_draft := none,
    has_unread_reply := some true }

def draftUpd (ai : String) : TicketUpd :=
  { status := none, draft := some ai, n8n_draft := some ai,
    has_unread_reply := none }

def display_response (p : Payload) (db : DB) : DB × List DbEv × Resp :=
  let ai := payload_ai p
  let cemail := payload_email p
  let tid0 := payload_tid0 p
  if !tid0.isEmpty && !ai.isEmpty then
    let res := resolve_ticket db p
    let tid := res.2
    let cmsg := payload_customer_message p
    let saveReply := !cmsg.isEmpty && !cemail.isEmpty && res.1.isSome
    let reply := mkReply p tid
    let db1 := if saveReply then create_reply db reply else db
    let upd1 := if saveReply then update_ticket db1 tid statusUpd else (db1, 0)
    let db2 := if saveReply then upd1.1 else db1
    let evs1 : List DbEv :=
      if saveReply then
        [DbEv.evCreateReply reply, DbEv.evUpdateTicket tid statusUpd]
      else []
    let upd2 := update_ticket db2 tid (draftUpd ai)
    let evs := evs1 ++ [DbEv.evUpdateTicket tid (draftUpd ai)]
    if upd2.2 = 0 then
      (upd2.1, evs,
        { success := false,
          message := "Ticket not found. Ensure from (email) is sent for fallback lookup.",
          ticket_id := some tid, customer_reply_saved := some false,
          http_code := 404 })
    else
      (upd2.1, evs,
        { success := true, message := "AI response saved to ticket",
          ticket_id := some tid, customer_reply_saved := some saveReply,
          http_code := 200 })
  else
    (db, [],
      { success := true, message := "AI response received (no ticket_id provided)",
        ticket_id := none, customer_reply_saved := none, http_code := 200 })

/-! ## Webhook ticket creation (src/routes/ticket_routes.py, lines 95-157)

`create_ticket_webhook` delegates payload normalisation to
`process_n8n_email_data` (routes/n8n_routes.py, not among the embedded
sources); `processed` below is its result.  The store insert is modelled
from the spec: `insert_ticket(record) -> id`, failing with a duplicate-thread
error (the `ValueError` whose text contains `Thread ID already exists`) when
`thread_id` collides. -/

inductive DbErr where
  | dupThread : String → DbErr
  | other : String → DbErr
deriving DecidableEq

/-- Modelled from the spec: `insert_ticket(record) -> id`, fails with
`DuplicateThreadError` if `thread_id` collides (`db.create_ticket`). -/
def db_create_ticket (db : DB) (t : Ticket) : Except DbErr DB :=
  if db.tickets.any (fun u => u.thread_id == t.thread_id) then
    Except.error (DbErr.dupThread t.thread_id)
  else
    Except.ok { db with tickets := db.tickets ++ [t] }

/-- Modelled from the spec: `find_ticket_by_thread(thread_id)`
(`db.tickets.find_one` on the thread id). -/
def find_one_by_thread (db : DB) (th : String) : Option Ticket :=
  db.tickets.find? (fun u => u.thread_id == th)

structure CreateResp where
  success : Bool
  message : String
  ticket_id : Option String
  http_code : Nat
deriving DecidableEq

/-- `create_ticket_webhook`: insert the processed record; on the
duplicate-thread `ValueError`, look up the existing ticket by thread id and
answer `Ticket already exists` with its code; other errors surface as 409. -/
def create_ticket_webhook (db : DB) (processed : Ticket) : DB × CreateResp :=
  match db_create_ticket db processed with
  | Except.ok db2 =>
    (db2, { success := true, message := "Ticket created successfully",
            ticket_id := some processed.ticket_id, http_code := 200 })
  | Except.error (DbErr.dupThread th) =>
    match find_one_by_thread db th with
    | some existing =>
      (db, { success := true, message := "Ticket already exists",
             ticket_id := some existing.ticket_id, http_code := 200 })
    | none =>
      (db, { success := false, message := "Thread ID already exists",
             ticket_id := none, http_code := 409 })
  | Except.error (DbErr.other m) =>
    (db, { success := false, message := m, ticket_id := none, http_code := 409 })

/-- Number of stored tickets carrying a given thread id. -/
def countThread (db : DB) (th : String) : Nat :=
  db.tickets.countP (fun u => u.thread_id == th)

/-! ## Concrete scenario data for claim C2 -/

/-- The C2 scenario payload:
`.ticket_id: "", body: "regarding ticket #M3F9A2", from: "a@b.com",
message: "still broken".` -/
def pC2 : Payload :=
  { ticket_id := some "", ai_response := none, draft := none,
    body := some "regarding ticket #M3F9A2", message := some "still broken",
    customer_message := none, from_addr := some "a@b.com",
    customer_email := none, name := none }

def tC2 : Ticket :=
  { ticket_id := "M3F9A2", thread_id := "th1", email := "a@b.com",
    status := "Open", draft := "", n8n_draft := "", has_unread_reply := false,
    created_at := 10 }

def dbC2 : DB := { tickets := [tC2], replies := [] }

/-- The C2 payload amended so the handler actually processes it: the claimed
ticket id is supplied (the body pattern `M3F9A2` is unmatchable by the
extraction regex) and a non-empty AI draft is present. -/
def pC2A : Payload :=
  { pC2 with ticket_id := some "M3F9A2",
             ai_response := some "We are looking into it." }

/-! ## Concrete scenario data for claims C5, C6, C8 -/

def tC6a : Ticket :=
  { ticket_id := "EE3295", thread_id := "thA", email := "other@x.com",
    status := "Open", draft := "", n8n_draft := "", has_unread_reply := false,
    created_at := 5 }

def tC6b : Ticket :=
  { ticket_id := "QQ777", thread_id := "thB", email := "a@b.com",
    status := "Open", draft := "", n8n_draft := "", has_unread_reply := false,
    created_at := 99 }

def dbC6 : DB := { tickets := [tC6a, tC6b], replies := [] }

def pC6 : Payload :=
  { ticket_id := some "", ai_response := some "d", draft := none,
    body := some "please see ticket EE3295", message := none,
    customer_message := none, from_addr := some "a@b.com",
    customer_email := none, name := none }

def pC8 : Payload :=
  { ticket_id := some "EE3295", ai_response := some "We will check.",
    draft := none, body := some "hello team", message := none,
    customer_message := none, from_addr := some "a@b.com",
    customer_email := none, name := none }

/-- A payload that resolves by its claimed id and carries a customer message,
but no sender address at all. -/
def pC8X : Payload :=
  { ticket_id := some "EE3295", ai_response := some "Draft reply.",
    draft := none, body := some "still broken", message := none,
    customer_message := none, from_addr := none, customer_email := none,
    name := none }

/-- A mixed dispatch outcome sequence: exception, then HTTP 500, then a
final exception. -/
def outC3mix : Nat → WOutcome :=
  fun i => if i = 0 then WOutcome.exc
    else if i = 1 then WOutcome.http 500 else WOutcome.exc

def tC8 : Ticket :=
  { ticket_id := "EE3295", thread_id := "thC", email := "a@b.com",
    status := "Open", draft := "", n8n_draft := "", has_unread_reply := false,
    created_at := 3 }

def dbC8 : DB := { tickets := [tC8], replies := [] }

def exC5 : Ticket :=
  { ticket_id := "AA111", thread_id := "thX", email := "c@d.com",
    status := "New", draft := "", n8n_draft := "", has_unread_reply := false,
    created_at := 1 }

def tC5 : Ticket :=
  { ticket_id := "BB222", thread_id := "thX", email := "e@f.com",
    status := "New", draft := "", n8n_draft := "", has_unread_reply := false,
    created_at := 2 }

def dbC5 : DB := { tickets := [exC5], replies := [] }

/-! ### Structural lemmas about the worker trace -/

/-- Every retry-loop trace is a run of posts and sleeps followed by exactly
one terminal status write, which is `success` or `failed`. -/
theorem webhook_worker_loop_split (out : Nat → WOutcome) :
    ∀ rem attempt, ∃ mid fin,
      webhook_worker_loop out attempt rem = mid ++ [Ev.mapWrite fin] ∧
      (∀ e ∈ mid, isMapWrite e = false) ∧ (fin = "success" ∨ fin = "failed") := by
  intro rem
  induction rem with
  | zero =>
    intro attempt
    exact ⟨[], "failed", rfl, fun e he => absurd he (List.not_mem_nil e), Or.inr rfl⟩
  | succ n ih =>
    intro attempt
    obtain ⟨mid, fin, heq, hmid, hfin⟩ := ih (attempt + 1)
    cases h : out attempt with
    | http code =>
      by_cases hc : code = 200
      · refine ⟨[Ev.post webhook_timeout], "success", ?_, ?_, Or.inl rfl⟩
        · simp [webhook_worker_loop, h, hc]
        · intro e he
          simp only [List.mem_singleton] at he
          subst he; rfl
      · refine ⟨Ev.post webhook_timeout :: mid, fin, ?_, ?_, hfin⟩
        · simp [webhook_worker_loop, h, hc, heq]
        · intro e he
          rcases List.mem_cons.mp he with rfl | hm
          · rfl
          · exact hmid e hm
    | exc =>
      refine ⟨Ev.post webhook_timeout ::
          ((if attempt < max_retries - 1 then [Ev.sleep retry_delay] else []) ++ mid),
        fin, ?_, ?_, hfin⟩
      · simp [webhook_worker_loop, h, heq]
      · intro e he
        rcases List.mem_cons.mp he with rfl | hm
        · rfl
        · rcases List.mem_append.mp hm with h1 | h2
          · split at h1
            · simp only [List.mem_singleton] at h1
              subst h1; rfl
            · cases h1
          · exact hmid e h2

/-- A fold over events containing no status-map write leaves the map entry
unchanged. -/
theorem runMapFrom_no_mapWrite :
    ∀ tr : List Ev, (∀ e ∈ tr, isMapWrite e = false) →
      ∀ st, runMapFrom st tr = st := by
  intro tr
  induction tr with
  | nil => intro _ st; rfl
  | cons e es ih =>
    intro h st
    have he := h e (List.mem_cons_self e es)
    have hrest : ∀ x ∈ es, isMapWrite x = false :=
      fun x hx => h x (List.mem_cons_of_mem e hx)
    cases e with
    | mapWrite s => simp [isMapWrite] at he
    | dbGetTicket t => exact ih hrest st
    | dbUpdateTicket t fs => exact ih hrest st
    | spawnWorker => exact ih hrest st
    | post n => exact ih hrest st
    | sleep n => exact ih hrest st

/-- No event of the retry loop writes to the document store. -/
theorem webhook_worker_loop_no_dbWrite (out : Nat → WOutcome) :
    ∀ rem attempt,
      (webhook_worker_loop out attempt rem).all (fun e => !isDbWrite e) = true := by
  intro rem
  induction rem with
  | zero => intro _; rfl
  | succ n ih =>
    intro attempt
    cases h : out attempt with
    | http code =>
      by_cases hc : code = 200
      · simp [webhook_worker_loop, h, hc, isDbWrite]
      · have hstep : webhook_worker_loop out attempt (n + 1) =
            Ev.post webhook_timeout :: webhook_worker_loop out (attempt + 1) n := by
          simp [webhook_worker_loop, h, hc]
        rw [hstep, List.all_cons, ih (attempt + 1)]
        rfl
    | exc =>
      simp only [webhook_worker_loop, h, List.all_cons, List.all_append]
      rw [ih (attempt + 1)]
      split <;> rfl

theorem countP_congrB {α : Type} (p q : α → Bool) :
    ∀ l : List α, (∀ a ∈ l, p a = q a) → l.countP p = l.countP q := by
  intro l
  induction l with
  | nil => intro _; rfl
  | cons a as ih =>
    intro h
    rw [List.countP_cons, List.countP_cons, h a (List.mem_cons_self a as),
      ih (fun x hx => h x (List.mem_cons_of_mem a hx))]

theorem dropToPost_cons_of_not_post (e : Ev) (l : List Ev)
    (h : isPost e = false) : dropToPost (e :: l) = dropToPost l := by
  cases e <;> first | rfl | simp [isPost] at h

theorem kthPostSuffix_cons_of_not_post (k : Nat) (e : Ev) (l : List Ev)
    (h : isPost e = false) : kthPostSuffix k (e :: l) = kthPostSuffix k l := by
  cases k with
  | zero => exact dropToPost_cons_of_not_post e l h
  | succ k2 =>
    unfold kthPostSuffix
    rw [dropToPost_cons_of_not_post e l h]

theorem afterKthPost_cons_of_not_post (e : Ev) (l : List Ev) (k : Nat)
    (h : isPost e = false) : afterKthPost (e :: l) k = afterKthPost l k := by
  unfold afterKthPost
  rw [kthPostSuffix_cons_of_not_post k e l h]

theorem afterKthPost_post_zero (t : Nat) (l : List Ev) :
    afterKthPost (Ev.post t :: l) 0 = l.head? := by
  cases l <;> rfl

theorem afterKthPost_post_succ (t : Nat) (l : List Ev) (k : Nat) :
    afterKthPost (Ev.post t :: l) (k + 1) = afterKthPost l k := rfl

theorem webhook_worker_loop_head (out : Nat → WOutcome) (attempt n : Nat) :
    (webhook_worker_loop out attempt (n + 1)).head? =
      some (Ev.post webhook_timeout) := rfl

/-- Per-attempt characterisation of the retry loop for an arbitrary
(possibly mixed) outcome sequence: the event the worker performs immediately
after each executed POST attempt. -/
theorem webhook_worker_loop_afterKthPost (out : Nat → WOutcome) :
    ∀ rem attempt, attempt + rem = max_retries →
      ∀ k, k < countPosts (webhook_worker_loop out attempt rem) →
      (out (attempt + k) = WOutcome.exc → attempt + k < max_retries - 1 →
        afterKthPost (webhook_worker_loop out attempt rem) k =
          some (Ev.sleep retry_delay)) ∧
      (∀ c, out (attempt + k) = WOutcome.http c → c ≠ 200 →
        attempt + k < max_retries - 1 →
        afterKthPost (webhook_worker_loop out attempt rem) k =
          some (Ev.post webhook_timeout)) ∧
      (out (attempt + k) = WOutcome.http 200 →
        afterKthPost (webhook_worker_loop out attempt rem) k =
          some (Ev.mapWrite "success")) ∧
      (attempt + k = max_retries - 1 → out (attempt + k) ≠ WOutcome.http 200 →
        afterKthPost (webhook_worker_loop out attempt rem) k =
          some (Ev.mapWrite "failed")) := by
  intro rem
  induction rem with
  | zero =>
    intro attempt _ k hk
    have hz : countPosts (webhook_worker_loop out attempt 0) = 0 := rfl
    rw [hz] at hk
    exact absurd hk (by omega)
  | succ n ih =>
    intro attempt hsum k hk
    cases hout : out attempt with
    | http code =>
      by_cases hc : code = 200
      · subst hc
        have htr : webhook_worker_loop out attempt (n + 1) =
            [Ev.post webhook_timeout, Ev.mapWrite "success"] := by
          simp [webhook_worker_loop, hout]
        have hcnt : countPosts (webhook_worker_loop out attempt (n + 1)) = 1 := by
          rw [htr]; rfl
        rw [hcnt] at hk
        have hk0 : k = 0 := by omega
        subst hk0
        refine ⟨?_, ?_, ?_, ?_⟩
        · intro hx _
          rw [Nat.add_zero, hout] at hx
          cases hx
        · intro c hx hcne _
          rw [Nat.add_zero, hout] at hx
          injection hx with hx
          exact absurd hx.symm hcne
        · intro _
          rw [htr]
          rfl
        · intro _ hx
          rw [Nat.add_zero, hout] at hx
          exact absurd rfl hx
      · have htr : webhook_worker_loop out attempt (n + 1) =
            Ev.post webhook_timeout :: webhook_worker_loop out (attempt + 1) n := by
          simp [webhook_worker_loop, hout, hc]
        have hcnt : countPosts (webhook_worker_loop out attempt (n + 1)) =
            countPosts (webhook_worker_loop out (attempt + 1) n) + 1 := by
          rw [htr]
          simp [countPosts, List.countP_cons, isPost]
        cases k with
        | zero =>
          refine ⟨?_, ?_, ?_, ?_⟩
          · intro hx _
            rw [Nat.add_zero, hout] at hx
            cases hx
          · intro c2 hx _ hlt
            rw [Nat.add_zero] at hlt
            obtain ⟨n2, rfl⟩ : ∃ n2, n = n2 + 1 := ⟨n - 1, by omega⟩
            rw [htr, afterKthPost_post_zero]
            exact webhook_worker_loop_head out (attempt + 1) n2
          · intro hx
            rw [Nat.add_zero, hout] at hx
            injection hx with hx
            exact absurd hx hc
          · intro hfin _
            rw [Nat.add_zero] at hfin
            have hn0 : n = 0 := by omega
            subst hn0
            rw [htr, afterKthPost_post_zero]
            rfl
        | succ j =>
          rw [hcnt] at hk
          have hcount : j < countPosts (webhook_worker_loop out (attempt + 1) n) := by
            omega
          have hsum2 : (attempt + 1) + n = max_retries := by omega
          obtain ⟨ih1, ih2, ih3, ih4⟩ := ih (attempt + 1) hsum2 j hcount
          have harith : attempt + (j + 1) = (attempt + 1) + j := by omega
          rw [htr, afterKthPost_post_succ, harith]
          exact ⟨ih1, ih2, ih3, ih4⟩
    | exc =>
      have htr : webhook_worker_loop out attempt (n + 1) =
          Ev.post webhook_timeout ::
            ((if attempt < max_retries - 1 then [Ev.sleep retry_delay] else []) ++
              webhook_worker_loop out (attempt + 1) n) := by
        simp [webhook_worker_loop, hout]
      have hcnt : countPosts (webhook_worker_loop out attempt (n + 1)) =
          countPosts (webhook_worker_loop out (attempt + 1) n) + 1 := by
        rw [htr]
        by_cases hlt : attempt < max_retries - 1
        · rw [if_pos hlt]
          simp [countPosts, List.countP_cons, List.countP_append, isPost]
        · rw [if_neg hlt]
          simp [countPosts, List.countP_cons, isPost]
      have hshift : ∀ j, afterKthPost
          ((if attempt < max_retries - 1 then [Ev.sleep retry_delay] else []) ++
            webhook_worker_loop out (attempt + 1) n) j =
          afterKthPost (webhook_worker_loop out (attempt + 1) n) j := by
        intro j
        by_cases hlt : attempt < max_retries - 1
        · rw [if_pos hlt, List.singleton_append]
          exact afterKthPost_cons_of_not_post _ _ j rfl
        · rw [if_neg hlt]
          rfl
      cases k with
      | zero =>
        refine ⟨?_, ?_, ?_, ?_⟩
        · intro _ hlt
          rw [Nat.add_zero] at hlt
          rw [htr, afterKthPost_post_zero, if_pos hlt]
          rfl
        · intro c hx _ _
          rw [Nat.add_zero, hout] at hx
          cases hx
        · intro hx
          rw [Nat.add_zero, hout] at hx
          cases hx
        · intro hfin _
          rw [Nat.add_zero] at hfin
          have hnlt : ¬ attempt < max_retries - 1 := by omega
          have hn0 : n = 0 := by omega
          subst hn0
          rw [htr, afterKthPost_post_zero, if_neg hnlt]
          rfl
      | succ j =>
        rw [hcnt] at hk
        have hcount : j < countPosts (webhook_worker_loop out (attempt + 1) n) := by
          omega
        have hsum2 : (attempt + 1) + n = max_retries := by omega
        obtain ⟨ih1, ih2, ih3, ih4⟩ := ih (attempt + 1) hsum2 j hcount
        have harith : attempt + (j + 1) = (attempt + 1) + j := by omega
        rw [htr, afterKthPost_post_succ, hshift j, harith]
        exact ⟨ih1, ih2, ih3, ih4⟩

/-- The number of backoff sleeps in a retry-loop trace equals the number of
executed attempt indices whose outcome is an exception and which are not the
final attempt. -/
theorem webhook_worker_loop_countSleeps (out : Nat → WOutcome) :
    ∀ rem attempt,
      countSleeps (webhook_worker_loop out attempt rem) =
        (List.range (countPosts (webhook_worker_loop out attempt rem))).countP
          (fun j => decide (out (attempt + j) = WOutcome.exc) &&
            decide (attempt + j < max_retries - 1)) := by
  intro rem
  induction rem with
  | zero => intro attempt; rfl
  | succ n ih =>
    intro attempt
    have hshiftP : ∀ m, (List.range (m + 1)).countP
          (fun j => decide (out (attempt + j) = WOutcome.exc) &&
            decide (attempt + j < max_retries - 1)) =
        ((if out attempt = WOutcome.exc ∧ attempt < max_retries - 1 then 1 else 0) +
          (List.range m).countP
            (fun j => decide (out ((attempt + 1) + j) = WOutcome.exc) &&
              decide ((attempt + 1) + j < max_retries - 1))) := by
      intro m
      rw [List.range_succ_eq_map, List.countP_cons, List.countP_map]
      have hcongr : (List.range m).countP
            ((fun j => decide (out (attempt + j) = WOutcome.exc) &&
              decide (attempt + j < max_retries - 1)) ∘ Nat.succ) =
          (List.range m).countP
            (fun j => decide (out ((attempt + 1) + j) = WOutcome.exc) &&
              decide ((attempt + 1) + j < max_retries - 1)) := by
        apply countP_congrB
        intro j _
        have hadd : attempt + (j + 1) = (attempt + 1) + j := by omega
        simp only [Function.comp]
        rw [show Nat.succ j = j + 1 from rfl, hadd]
      rw [hcongr]
      by_cases hcase : out attempt = WOutcome.exc ∧ attempt < max_retries - 1
      · rw [if_pos hcase]
        have hb : (decide (out (attempt + 0) = WOutcome.exc) &&
            decide (attempt + 0 < max_retries - 1)) = true := by
          simp [hcase.1, hcase.2]
        rw [hb, if_pos rfl]
        omega
      · rw [if_neg hcase]
        have hb : (decide (out (attempt + 0) = WOutcome.exc) &&
            decide (attempt + 0 < max_retries - 1)) = false := by
          simp only [Nat.add_zero]
          by_cases h1 : out attempt = WOutcome.exc
          · have h2 : ¬ attempt < max_retries - 1 := fun h2 => hcase ⟨h1, h2⟩
            simp [h1, h2]
          · simp [h1]
        rw [hb]
        simp
    cases hout : out attempt with
    | http code =>
      by_cases hc : code = 200
      · subst hc
        have htr : webhook_worker_loop out attempt (n + 1) =
            [Ev.post webhook_timeout, Ev.mapWrite "success"] := by
          simp [webhook_worker_loop, hout]
        rw [htr]
        have hcp : countPosts [Ev.post webhook_timeout, Ev.mapWrite "success"] = 1 := rfl
        rw [hcp, hshiftP 0]
        have hif : ¬ (out attempt = WOutcome.exc ∧ attempt < max_retries - 1) := by
          rw [hout]
          rintro ⟨h1, _⟩
          cases h1
        rw [if_neg hif]
        rfl
      · have htr : webhook_worker_loop out attempt (n + 1) =
            Ev.post webhook_timeout :: webhook_worker_loop out (attempt + 1) n := by
          simp [webhook_worker_loop, hout, hc]
        rw [htr]
        have hcS : countSleeps (Ev.post webhook_timeout ::
              webhook_worker_loop out (attempt + 1) n) =
            countSleeps (webhook_worker_loop out (attempt + 1) n) := by
          simp [countSleeps, List.countP_cons, isSleep]
        have hcP : countPosts (Ev.post webhook_timeout ::
              webhook_worker_loop out (attempt + 1) n) =
            countPosts (webhook_worker_loop out (attempt + 1) n) + 1 := by
          simp [countPosts, List.countP_cons, isPost]
        rw [hcS, hcP, hshiftP _]
        have hif : ¬ (out attempt = WOutcome.exc ∧ attempt < max_retries - 1) := by
          rw [hout]
          rintro ⟨h1, _⟩
          cases h1
        rw [if_neg hif, ih (attempt + 1)]
        omega
    | exc =>
      by_cases hlt : attempt < max_retries - 1
      · have htr : webhook_worker_loop out attempt (n + 1) =
            Ev.post webhook_timeout :: Ev.sleep retry_delay ::
              webhook_worker_loop out (attempt + 1) n := by
          simp [webhook_worker_loop, hout, hlt]
        rw [htr]
        have hcS : countSleeps (Ev.post webhook_timeout :: Ev.sleep retry_delay ::
              webhook_worker_loop out (attempt + 1) n) =
            countSleeps (webhook_worker_loop out (attempt + 1) n) + 1 := by
          simp [countSleeps, List.countP_cons, isSleep]
        have hcP : countPosts (Ev.post webhook_timeout :: Ev.sleep retry_delay ::
              webhook_worker_loop out (attempt + 1) n) =
            countPosts (webhook_worker_loop out (attempt + 1) n) + 1 := by
          simp [countPosts, List.countP_cons, isPost]
        rw [hcS, hcP, hshiftP _]
        have hif : out attempt = WOutcome.exc ∧ attempt < max_retries - 1 :=
          ⟨hout, hlt⟩
        rw [if_pos hif, ih (attempt + 1)]
        omega
      · have htr : webhook_worker_loop out attempt (n + 1) =
            Ev.post webhook_timeout :: webhook_worker_loop out (attempt + 1) n := by
          simp [webhook_worker_loop, hout, hlt]
        rw [htr]
        have hcS : countSleeps (Ev.post webhook_timeout ::
              webhook_worker_loop out (attempt + 1) n) =
            countSleeps (webhook_worker_loop out (attempt + 1) n) := by
          simp [countSleeps, List.countP_cons, isSleep]
        have hcP : countPosts (Ev.post webhook_timeout ::
              webhook_worker_loop out (attempt + 1) n) =
            countPosts (webhook_worker_loop out (attempt + 1) n) + 1 := by
          simp [countPosts, List.countP_cons, isPost]
        rw [hcS, hcP, hshiftP _]
        have hif : ¬ (out attempt = WOutcome.exc ∧ attempt < max_retries - 1) :=
          fun hand => hlt hand.2
        rw [if_neg hif, ih (attempt + 1)]
        omega

/-! ### Claim theorems about the dispatcher -/

/-- C1 (counterexample): the `pending` write is the background worker's first
action, not an action of the trigger function, so a `get_webhook_status`
query interleaved after the trigger returned but before the worker thread
performed any event (insertion point 0 of the worker trace — in particular
before any attempt completed) observes `unknown`, contradicting the claim
that such a query returns `pending`, never `unknown`. -/
theorem C1_counterexample_unknown_before_worker_runs :
    queryAt (webhook_worker (fun _ => WOutcome.http 500)) 0 = "unknown" ∧
    countPosts ((webhook_worker (fun _ => WOutcome.http 500)).take 0) = 0 := by
  constructor <;> decide

/-- C1 (amended): `pending` is the worker's first action and precedes its
first delivery attempt; a status query interleaved anywhere after the
worker's first event and before its terminal status write observes
`pending`.  A query interleaved before the worker's first event may still
observe `unknown` (see the counterexample). -/
theorem C1_pending_after_worker_start :
    (∀ out : Nat → WOutcome,
      (webhook_worker out).head? = some (Ev.mapWrite "pending")) ∧
    (∀ (out : Nat → WOutcome) (i : Nat), 1 ≤ i → i < (webhook_worker out).length →
      queryAt (webhook_worker out) i = "pending") := by
  constructor
  · intro out; rfl
  · intro out i h1 h2
    obtain ⟨mid, fin, heq, hmid, _⟩ := webhook_worker_loop_split out max_retries 0
    obtain ⟨k, rfl⟩ : ∃ k, i = k + 1 := ⟨i - 1, by omega⟩
    have hlen : k ≤ mid.length := by
      have hL : (webhook_worker out).length = mid.length + 2 := by
        simp [webhook_worker, heq]
      omega
    have htake : (webhook_worker out).take (k + 1) =
        Ev.mapWrite "pending" :: mid.take k := by
      simp [webhook_worker, heq, List.take_append_of_le_length hlen]
    have h3 : ∀ e ∈ mid.take k, isMapWrite e = false :=
      fun e he => hmid e (List.mem_of_mem_take he)
    unfold queryAt
    rw [htake]
    have hrun : runMap (Ev.mapWrite "pending" :: mid.take k) = some "pending" := by
      show runMapFrom (some "pending") (mid.take k) = some "pending"
      exact runMapFrom_no_mapWrite _ h3 _
    rw [hrun]
    rfl

/-- C1 (witness for the amended theorem). -/
theorem C1_pending_after_worker_start_witness :
    queryAt (webhook_worker (fun _ => WOutcome.http 500)) 2 = "pending" :=
  C1_pending_after_worker_start.2 (fun _ => WOutcome.http 500) 2 (by decide) (by decide)

/-- C3 (counterexample): a dispatch whose three attempts all receive HTTP 500
— unsuccessful, non-exceptional attempts — produces a trace with no sleep at
all: the worker does not wait the backoff interval after non-200 responses,
contradicting the claim that every unsuccessful non-final attempt is followed
by a 2-unit wait (which would require two sleeps here). -/
theorem C3_counterexample_no_wait_after_non200 :
    webhook_worker (fun _ => WOutcome.http 500) =
      [Ev.mapWrite "pending", Ev.post webhook_timeout, Ev.post webhook_timeout,
       Ev.post webhook_timeout, Ev.mapWrite "failed"] ∧
    countSleeps (webhook_worker (fun _ => WOutcome.http 500)) = 0 := by
  constructor <;> decide

/-- C3 (amended): for every dispatch, whatever its mix of per-attempt
outcomes, the event the worker performs immediately after an executed
attempt is the fixed 2-unit backoff sleep exactly when that attempt raised
an exception (including a timeout) and was not the final attempt; after a
non-200 HTTP response the next event is the next POST itself (no wait),
after HTTP 200 it is the `success` status write, and after a failing final
attempt it is the `failed` status write (no wait).  The total number of
sleeps equals the number of executed non-final exception attempts, and the
trace always ends with a terminal status write, never a sleep. -/
theorem C3_backoff_only_after_exception_attempts :
    (∀ (out : Nat → WOutcome) (k : Nat), k < countPosts (webhook_worker out) →
      (out k = WOutcome.exc → k < max_retries - 1 →
        afterKthPost (webhook_worker out) k = some (Ev.sleep retry_delay)) ∧
      (∀ c, out k = WOutcome.http c → c ≠ 200 → k < max_retries - 1 →
        afterKthPost (webhook_worker out) k = some (Ev.post webhook_timeout)) ∧
      (out k = WOutcome.http 200 →
        afterKthPost (webhook_worker out) k = some (Ev.mapWrite "success")) ∧
      (k = max_retries - 1 → out k ≠ WOutcome.http 200 →
        afterKthPost (webhook_worker out) k = some (Ev.mapWrite "failed"))) ∧
    (∀ out : Nat → WOutcome,
      countSleeps (webhook_worker out) =
        (List.range (countPosts (webhook_worker out))).countP
          (fun j => decide (out j = WOutcome.exc) &&
            decide (j < max_retries - 1))) ∧
    (∀ out : Nat → WOutcome,
      ∃ fin, (webhook_worker out).getLast? = some (Ev.mapWrite fin)) := by
  refine ⟨?_, ?_, ?_⟩
  · intro out k hk
    have hcp : countPosts (webhook_worker out) =
        countPosts (webhook_worker_loop out 0 max_retries) := by
      simp [webhook_worker, countPosts, List.countP_cons, isPost]
    rw [hcp] at hk
    have hmain := webhook_worker_loop_afterKthPost out max_retries 0
      (Nat.zero_add _) k hk
    have hafter : ∀ j, afterKthPost (webhook_worker out) j =
        afterKthPost (webhook_worker_loop out 0 max_retries) j := by
      intro j
      show afterKthPost (Ev.mapWrite "pending" ::
        webhook_worker_loop out 0 max_retries) j = _
      exact afterKthPost_cons_of_not_post _ _ j rfl
    obtain ⟨m1, m2, m3, m4⟩ := hmain
    rw [Nat.zero_add] at m1 m2 m3 m4
    refine ⟨fun hx hlt => ?_, fun c hx hcne hlt => ?_,
      fun hx => ?_, fun hfin hx => ?_⟩
    · rw [hafter k]
      exact m1 hx hlt
    · rw [hafter k]
      exact m2 c hx hcne hlt
    · rw [hafter k]
      exact m3 hx
    · rw [hafter k]
      exact m4 hfin hx
  · intro out
    have hS : countSleeps (webhook_worker out) =
        countSleeps (webhook_worker_loop out 0 max_retries) := by
      simp [webhook_worker, countSleeps, List.countP_cons, isSleep]
    have hP : countPosts (webhook_worker out) =
        countPosts (webhook_worker_loop out 0 max_retries) := by
      simp [webhook_worker, countPosts, List.countP_cons, isPost]
    rw [hS, hP, webhook_worker_loop_countSleeps out max_retries 0]
    apply countP_congrB
    intro j _
    rw [Nat.zero_add]
  · intro out
    obtain ⟨mid, fin, heq, _, _⟩ := webhook_worker_loop_split out max_retries 0
    refine ⟨fin, ?_⟩
    rw [webhook_worker, heq, ← List.cons_append, List.getLast?_concat]

/-- C3 (witness for the amended theorem, on a mixed dispatch — exception,
then HTTP 500, then a final exception): the 2-unit sleep immediately follows
the first attempt, the second attempt is immediately followed by the third
POST with no wait, the failing final attempt is immediately followed by the
`failed` write, and the trace contains exactly one sleep. -/
theorem C3_backoff_only_after_exception_attempts_witness :
    afterKthPost (webhook_worker outC3mix) 0 = some (Ev.sleep retry_delay) ∧
    afterKthPost (webhook_worker outC3mix) 1 = some (Ev.post webhook_timeout) ∧
    afterKthPost (webhook_worker outC3mix) 2 = some (Ev.mapWrite "failed") ∧
    countSleeps (webhook_worker outC3mix) = 1 :=
  ⟨(C3_backoff_only_after_exception_attempts.1 outC3mix 0 (by decide)).1
      (by decide) (by decide),
   (C3_backoff_only_after_exception_attempts.1 outC3mix 1 (by decide)).2.1
      500 (by decide) (by decide) (by decide),
   (C3_backoff_only_after_exception_attempts.1 outC3mix 2 (by decide)).2.2.2
      (by decide) (by decide),
   (C3_backoff_only_after_exception_attempts.2.1 outC3mix).trans (by decide)⟩

/-- C4: a dispatch whose attempts never receive HTTP 200 performs exactly 3
POST attempts and records final status `failed`; a dispatch whose first
attempt is unsuccessful and whose second attempt receives HTTP 200 performs
exactly 2 POST attempts and records final status `success` (the worker
returns without further attempts). -/
theorem C4_attempt_counts_and_final_status :
    (∀ out : Nat → WOutcome,
      (∀ i, i < max_retries → out i ≠ WOutcome.http 200) →
      countPosts (webhook_worker out) = 3 ∧ finalStatus out = "failed") ∧
    (∀ out : Nat → WOutcome,
      out 0 ≠ WOutcome.http 200 → out 1 = WOutcome.http 200 →
      countPosts (webhook_worker out) = 2 ∧ finalStatus out = "success") := by
  constructor
  · intro out h
    have h0 := h 0 (by decide)
    have h1 := h 1 (by decide)
    have h2 := h 2 (by decide)
    cases hx0 : out 0 with
    | http c0 =>
      have e0 : c0 ≠ 200 := fun hc => h0 (by rw [hx0, hc])
      cases hx1 : out 1 with
      | http c1 =>
        have e1 : c1 ≠ 200 := fun hc => h1 (by rw [hx1, hc])
        cases hx2 : out 2 with
        | http c2 =>
          have e2 : c2 ≠ 200 := fun hc => h2 (by rw [hx2, hc])
          constructor <;>
            simp [webhook_worker, finalStatus, max_retries, webhook_worker_loop,
              hx0, hx1, hx2, e0, e1, e2, countPosts, isPost, runMap, runMapFrom,
              get_webhook_status_view]
        | exc =>
          constructor <;>
            simp [webhook_worker, finalStatus, max_retries, webhook_worker_loop,
              hx0, hx1, hx2, e0, e1, countPosts, isPost, runMap, runMapFrom,
              get_webhook_status_view]
      | exc =>
        cases hx2 : out 2 with
        | http c2 =>
          have e2 : c2 ≠ 200 := fun hc => h2 (by rw [hx2, hc])
          constructor <;>
            simp [webhook_worker, finalStatus, max_retries, webhook_worker_loop,
              hx0, hx1, hx2, e0, e2, countPosts, isPost, runMap, runMapFrom,
              get_webhook_status_view]
        | exc =>
          constructor <;>
            simp [webhook_worker, finalStatus, max_retries, webhook_worker_loop,
              hx0, hx1, hx2, e0, countPosts, isPost, runMap, runMapFrom,
              get_webhook_status_view]
    | exc =>
      cases hx1 : out 1 with
      | http c1 =>
        have e1 : c1 ≠ 200 := fun hc => h1 (by rw [hx1, hc])
        cases hx2 : out 2 with
        | http c2 =>
          have e2 : c2 ≠ 200 := fun hc => h2 (by rw [hx2, hc])
          constructor <;>
            simp [webhook_worker, finalStatus, max_retries, webhook_worker_loop,
              hx0, hx1, hx2, e1, e2, countPosts, isPost, runMap, runMapFrom,
              get_webhook_status_view]
        | exc =>
          constructor <;>
            simp [webhook_worker, finalStatus, max_retries, webhook_worker_loop,
              hx0, hx1, hx2, e1, countPosts, isPost, runMap, runMapFrom,
              get_webhook_status_view]
      | exc =>
        cases hx2 : out 2 with
        | http c2 =>
          have e2 : c2 ≠ 200 := fun hc => h2 (by rw [hx2, hc])
          constructor <;>
            simp [webhook_worker, finalStatus, max_retries, webhook_worker_loop,
              hx0, hx1, hx2, e2, countPosts, isPost, runMap, runMapFrom,
              get_webhook_status_view]
        | exc =>
          constructor <;>
            simp [webhook_worker, finalStatus, max_retries, webhook_worker_loop,
              hx0, hx1, hx2, countPosts, isPost, runMap, runMapFrom,
              get_webhook_status_view]
  · intro out h0 h200
    cases hx0 : out 0 with
    | http c0 =>
      have e0 : c0 ≠ 200 := fun hc => h0 (by rw [hx0, hc])
      constructor <;>
        simp [webhook_worker, finalStatus, max_retries, webhook_worker_loop,
          hx0, h200, e0, countPosts, isPost, runMap, runMapFrom,
          get_webhook_status_view]
    | exc =>
      constructor <;>
        simp [webhook_worker, finalStatus, max_retries, webhook_worker_loop,
          hx0, h200, countPosts, isPost, runMap, runMapFrom,
          get_webhook_status_view]

/-- C4 (witness). -/
theorem C4_attempt_counts_and_final_status_witness :
    (countPosts (webhook_worker (fun _ => WOutcome.http 500)) = 3 ∧
      finalStatus (fun _ => WOutcome.http 500) = "failed") ∧
    (countPosts (webhook_worker
        (fun i => if i = 0 then WOutcome.http 503 else WOutcome.http 200)) = 2 ∧
      finalStatus (fun i => if i = 0 then WOutcome.http 503 else WOutcome.http 200) =
        "success") :=
  ⟨C4_attempt_counts_and_final_status.1 (fun _ => WOutcome.http 500)
      (fun i _ => by simp),
   C4_attempt_counts_and_final_status.2
      (fun i => if i = 0 then WOutcome.http 503 else WOutcome.http 200)
      (by decide) (by decide)⟩

/-- C9: in the `refer_to_tech_director` handler the document-store mutation
(status `Referred to Tech Director`, `referred_at`, `referred_by`) is
committed strictly before the dispatch is spawned, and the dispatch worker
performs no document-store write on any path: for every outcome sequence the
worker trace contains no `dbUpdateTicket` event, and exhausting all retries
merely ends the trace with the in-memory `failed` map write. -/
theorem C9_ticket_commit_before_dispatch_and_worker_frame :
    (∀ tid : String,
      refer_to_tech_director_trace tid =
        [Ev.dbGetTicket tid,
         Ev.dbUpdateTicket tid ["status", "referred_at", "referred_by"],
         Ev.spawnWorker] ∧
      (refer_to_tech_director_trace tid)[1]? =
          some (Ev.dbUpdateTicket tid ["status", "referred_at", "referred_by"]) ∧
      (refer_to_tech_director_trace tid)[2]? = some Ev.spawnWorker) ∧
    (∀ out : Nat → WOutcome,
      (webhook_worker out).all (fun e => !isDbWrite e) = true) ∧
    ((webhook_worker (fun _ => WOutcome.exc)).getLast? =
        some (Ev.mapWrite "failed")) := by
  refine ⟨?_, ?_, by decide⟩
  · intro tid
    exact ⟨rfl, rfl, rfl⟩
  · intro out
    show (Ev.mapWrite "pending" :: webhook_worker_loop out 0 max_retries).all
        (fun e => !isDbWrite e) = true
    rw [List.all_cons, webhook_worker_loop_no_dbWrite out max_retries 0]
    rfl

/-! ### Helper lemmas about the document-store model -/

theorem applyUpd_ticket_id (u : TicketUpd) (t : Ticket) :
    (applyUpd u t).ticket_id = t.ticket_id := rfl

/-- `update_first` on a list whose first match is `t`: one record matched,
the match is updated in place, the length is unchanged. -/
theorem update_first_spec (tid : String) (u : TicketUpd) :
    ∀ (l : List Ticket) (t : Ticket),
      l.find? (fun x => x.ticket_id == tid) = some t →
      (update_first tid u l).2 = 1 ∧
      (update_first tid u l).1.find? (fun x => x.ticket_id == tid) =
        some (applyUpd u t) ∧
      (update_first tid u l).1.length = l.length := by
  intro l
  induction l with
  | nil => intro t h; cases h
  | cons a as ih =>
    intro t h
    by_cases ha : (a.ticket_id == tid) = true
    · rw [@List.find?_cons_of_pos _ (fun x => x.ticket_id == tid) a as ha] at h
      injection h with h
      subst h
      have hstep : update_first tid u (a :: as) = (applyUpd u a :: as, 1) := by
        simp [update_first, ha]
      rw [hstep]
      have ha2 : ((applyUpd u a).ticket_id == tid) = true := ha
      exact ⟨rfl,
        @List.find?_cons_of_pos _ (fun x => x.ticket_id == tid) (applyUpd u a) as ha2,
        by simp⟩
    · have ha2 : (a.ticket_id == tid) = false := by
        revert ha; cases (a.ticket_id == tid) <;> simp
      rw [@List.find?_cons_of_neg _ (fun x => x.ticket_id == tid) a as
        (by simp [ha2])] at h
      obtain ⟨h1, h2, h3⟩ := ih t h
      have hstep : update_first tid u (a :: as) =
          (a :: (update_first tid u as).1, (update_first tid u as).2) := by
        simp [update_first, ha2]
      rw [hstep]
      refine ⟨h1, ?_, by simp [h3]⟩
      rw [@List.find?_cons_of_neg _ (fun x => x.ticket_id == tid) a
        (update_first tid u as).1 (by simp [ha2])]
      exact h2

/-- `update_ticket` on a store that holds the ticket: `matched_count = 1`,
the record is updated, and replies plus record count are untouched. -/
theorem update_ticket_spec (db : DB) (tid : String) (u : TicketUpd) (t : Ticket)
    (h : get_ticket_by_id db tid = some t) :
    (update_ticket db tid u).2 = 1 ∧
    get_ticket_by_id (update_ticket db tid u).1 tid = some (applyUpd u t) ∧
    (update_ticket db tid u).1.replies = db.replies ∧
    (update_ticket db tid u).1.tickets.length = db.tickets.length := by
  obtain ⟨h1, h2, h3⟩ := update_first_spec tid u db.tickets t h
  exact ⟨h1, h2, rfl, h3⟩

theorem create_reply_tickets (db : DB) (r : Reply) :
    (create_reply db r).tickets = db.tickets := rfl

theorem create_reply_replies (db : DB) (r : Reply) :
    (create_reply db r).replies = db.replies ++ [r] := rfl

/-- Folding `pickLatest` yields either the accumulator or a list element, of
maximal `created_at` among both. -/
theorem foldl_pickLatest_spec :
    ∀ (l : List Ticket) (acc : Option Ticket) (t : Ticket),
      l.foldl pickLatest acc = some t →
      (acc = some t ∨ t ∈ l) ∧
      (∀ b, acc = some b → b.created_at ≤ t.created_at) ∧
      (∀ u ∈ l, u.created_at ≤ t.created_at) := by
  intro l
  induction l with
  | nil =>
    intro acc t h
    refine ⟨Or.inl h, ?_, ?_⟩
    · intro b hb
      rw [hb] at h
      injection h with h
      subst h
      exact Nat.le_refl _
    · intro u hu; cases hu
  | cons a as ih =>
    intro acc t h
    rw [List.foldl_cons] at h
    obtain ⟨hmem, hacc, hall⟩ := ih (pickLatest acc a) t h
    have hstep : ∀ b, pickLatest acc a = some b →
        (b = a ∨ acc = some b) ∧ a.created_at ≤ b.created_at ∧
        (∀ c, acc = some c → c.created_at ≤ b.created_at) := by
      intro b hb
      cases acc with
      | none =>
        simp only [pickLatest] at hb
        injection hb with hb
        subst hb
        exact ⟨Or.inl rfl, Nat.le_refl _, fun c hc => by cases hc⟩
      | some c =>
        simp only [pickLatest] at hb
        by_cases hlt : c.created_at < a.created_at
        · rw [if_pos hlt] at hb
          injection hb with hb
          subst hb
          exact ⟨Or.inl rfl, Nat.le_refl _,
            fun d hd => by injection hd with hd; subst hd; exact Nat.le_of_lt hlt⟩
        · rw [if_neg hlt] at hb
          injection hb with hb
          subst hb
          exact ⟨Or.inr rfl, Nat.le_of_not_lt hlt,
            fun d hd => by injection hd with hd; subst hd; exact Nat.le_refl _⟩
    have hsome : ∃ b, pickLatest acc a = some b := by
      cases acc with
      | none => exact ⟨a, rfl⟩
      | some c =>
        by_cases hlt : c.created_at < a.created_at
        · refine ⟨a, ?_⟩
          show (if c.created_at < a.created_at then some a else some c) = some a
          rw [if_pos hlt]
        · refine ⟨c, ?_⟩
          show (if c.created_at < a.created_at then some a else some c) = some c
          rw [if_neg hlt]
    obtain ⟨b, hb⟩ := hsome
    obtain ⟨hba, hab, hcb⟩ := hstep b hb
    refine ⟨?_, ?_, ?_⟩
    · rcases hmem with hpa | hin
      · obtain ⟨hba2, _, _⟩ := hstep t hpa
        rcases hba2 with rfl | hacct
        · exact Or.inr (List.mem_cons_self _ _)
        · exact Or.inl hacct
      · exact Or.inr (List.mem_cons_of_mem a hin)
    · intro c hc
      exact Nat.le_trans (hcb c hc) (hacc b hb)
    · intro u hu
      rcases List.mem_cons.mp hu with rfl | hin
      · exact Nat.le_trans hab (hacc b hb)
      · exact hall u hin

/-- What a successful email fallback returns: a stored ticket with that exact
email address, most recently created among them. -/
theorem latest_ticket_by_email_spec (db : DB) (e : String) (t : Ticket)
    (h : latest_ticket_by_email db e = some t) :
    t ∈ db.tickets ∧ t.email = e ∧
    ∀ u ∈ db.tickets, u.email = e → u.created_at ≤ t.created_at := by
  unfold latest_ticket_by_email at h
  obtain ⟨hmem, _, hall⟩ := foldl_pickLatest_spec _ none t h
  rcases hmem with hacc | hmem
  · cases hacc
  · have hf := List.mem_filter.mp hmem
    refine ⟨hf.1, eq_of_beq hf.2, ?_⟩
    intro u hu hue
    exact hall u (List.mem_filter.mpr ⟨hu, by simp [hue]⟩)

/-- `display_response` on the path where a ticket is resolved and a customer
reply is saved: the reply insert is issued first, then the status update,
then the draft update, and the handler answers success. -/
theorem display_response_saveReply_eq (p : Payload) (db : DB) (t t2 : Ticket)
    (tid : String)
    (hA : (payload_tid0 p).isEmpty = false)
    (hB : (payload_ai p).isEmpty = false)
    (hres : resolve_ticket db p = (some t, tid))
    (hC : (payload_customer_message p).isEmpty = false)
    (hD : (payload_email p).isEmpty = false)
    (hget : get_ticket_by_id db tid = some t2) :
    display_response p db =
      ((update_ticket
          (update_ticket (create_reply db (mkReply p tid)) tid statusUpd).1
          tid (draftUpd (payload_ai p))).1,
        [DbEv.evCreateReply (mkReply p tid), DbEv.evUpdateTicket tid statusUpd,
          DbEv.evUpdateTicket tid (draftUpd (payload_ai p))],
        { success := true, message := "AI response saved to ticket",
          ticket_id := some tid, customer_reply_saved := some true,
          http_code := 200 }) := by
  have hget1 : get_ticket_by_id (create_reply db (mkReply p tid)) tid = some t2 := hget
  obtain ⟨hm1, hg2, _, _⟩ :=
    update_ticket_spec (create_reply db (mkReply p tid)) tid statusUpd t2 hget1
  obtain ⟨hm2, _, _, _⟩ :=
    update_ticket_spec _ tid (draftUpd (payload_ai p)) _ hg2
  unfold display_response
  simp only [hres, hA, hB, hC, hD, Bool.not_false, Bool.and_self, Bool.true_and,
    Bool.and_true, Option.isSome_some, if_true, hm2]
  simp

/-! ### Shape of every captured ticket id

The capture group of all four patterns is `([A-Z]{1,3}\d{3,6})` (with
`IGNORECASE`), so whatever `re.search` captures is one to three letters
followed by three to six digits; `upper()` then forces the letters into
`A`-`Z`.  The lemmas below derive this from the engine. -/

theorem clsRun_le_length (p : Char → Bool) :
    ∀ s : List Char, clsRun p s ≤ s.length := by
  intro s
  induction s with
  | nil => exact Nat.le_refl 0
  | cons a as ih =>
    by_cases hp : p a = true
    · have hrun : clsRun p (a :: as) = clsRun p as + 1 := by simp [clsRun, hp]
      rw [hrun, List.length_cons]
      omega
    · have hrun : clsRun p (a :: as) = 0 := by simp [clsRun, hp]
      rw [hrun]
      exact Nat.zero_le _

theorem clsRun_take (p : Char → Bool) :
    ∀ (s : List Char) (k : Nat), k ≤ clsRun p s → ∀ c ∈ s.take k, p c = true := by
  intro s
  induction s with
  | nil => intro k _ c hc; simp at hc
  | cons a as ih =>
    intro k hk c hc
    by_cases hp : p a = true
    · cases k with
      | zero => simp at hc
      | succ k2 =>
        rw [List.take_succ_cons] at hc
        rcases List.mem_cons.mp hc with rfl | hm
        · exact hp
        · have hrun : clsRun p (a :: as) = clsRun p as + 1 := by simp [clsRun, hp]
          rw [hrun] at hk
          exact ih k2 (by omega) c hm
    · have hrun : clsRun p (a :: as) = 0 := by simp [clsRun, hp]
      rw [hrun] at hk
      have hz : k = 0 := by omega
      subst hz
      simp at hc

theorem mem_clsCandidates (p : Char → Bool) (mn : Nat) (mx : Option Nat)
    (s r : List Char) (h : r ∈ clsCandidates p mn mx s) :
    ∃ k, mn ≤ k ∧ k ≤ clsRun p s ∧ (∀ m, mx = some m → k ≤ m) ∧ r = s.drop k := by
  cases mx with
  | none =>
    simp only [clsCandidates, List.mem_map, List.mem_range] at h
    obtain ⟨i, hi, rfl⟩ := h
    refine ⟨clsRun p s - i, ?_, ?_, ?_, rfl⟩
    · omega
    · omega
    · intro m hm; cases hm
  | some m =>
    simp only [clsCandidates, List.mem_map, List.mem_range] at h
    obtain ⟨i, hi, rfl⟩ := h
    have hq1 : Nat.min m (clsRun p s) ≤ m := Nat.min_le_left _ _
    have hq2 : Nat.min m (clsRun p s) ≤ clsRun p s := Nat.min_le_right _ _
    generalize hq : Nat.min m (clsRun p s) = q at hi hq1 hq2 ⊢
    refine ⟨q - i, ?_, ?_, ?_, rfl⟩
    · omega
    · omega
    · intro m2 hm2
      injection hm2 with hm2
      subst hm2
      omega

theorem matchToks_grp_mem (r r2 : List Char) (h : r2 ∈ matchToks grpToks r) :
    ∃ k1 k2, 1 ≤ k1 ∧ k1 ≤ 3 ∧ k1 ≤ clsRun isLetterIC r ∧
      3 ≤ k2 ∧ k2 ≤ 6 ∧ k2 ≤ clsRun isDigitC (r.drop k1) ∧
      r2 = (r.drop k1).drop k2 := by
  simp only [grpToks, matchToks, List.mem_flatMap, List.mem_singleton] at h
  obtain ⟨ra, hra, rb, hrb, rfl⟩ := h
  obtain ⟨k1, hk1a, hk1b, hk1c, rfl⟩ := mem_clsCandidates _ _ _ _ _ hra
  obtain ⟨k2, hk2a, hk2b, hk2c, rfl⟩ := mem_clsCandidates _ _ _ _ _ hrb
  exact ⟨k1, k2, hk1a, hk1c 3 rfl, hk1b, hk2a, hk2c 6 rfl, hk2b, rfl⟩

theorem capture_shape (r r2 : List Char) (hmem : r2 ∈ matchToks grpToks r) :
    ∃ ls ds, r.take (r.length - r2.length) = ls ++ ds ∧
      1 ≤ ls.length ∧ ls.length ≤ 3 ∧ (∀ c ∈ ls, isLetterIC c = true) ∧
      3 ≤ ds.length ∧ ds.length ≤ 6 ∧ (∀ c ∈ ds, isDigitC c = true) := by
  obtain ⟨k1, k2, h1, h3, hr1, h4, h6, hr2, rfl⟩ := matchToks_grp_mem r r2 hmem
  have hlen1 : k1 ≤ r.length := Nat.le_trans hr1 (clsRun_le_length _ r)
  have hlen2 : k2 ≤ (r.drop k1).length := Nat.le_trans hr2 (clsRun_le_length _ _)
  have hdlen : (r.drop k1).length = r.length - k1 := by simp
  have hsub : r.length - ((r.drop k1).drop k2).length = k1 + k2 := by
    simp only [List.length_drop]
    omega
  rw [hsub, List.take_add]
  refine ⟨r.take k1, (r.drop k1).take k2, rfl, ?_, ?_, ?_, ?_, ?_, ?_⟩
  · rw [List.length_take]; omega
  · rw [List.length_take]; omega
  · intro c hc; exact clsRun_take isLetterIC r k1 hr1 c hc
  · rw [List.length_take]; omega
  · rw [List.length_take]; omega
  · intro c hc; exact clsRun_take isDigitC (r.drop k1) k2 hr2 c hc

theorem firstGroup_some (rs : List (List Char)) :
    ∀ g : List Char, firstGroup grpToks rs = some g →
      ∃ r r2, r2 ∈ matchToks grpToks r ∧ g = r.take (r.length - r2.length) := by
  induction rs with
  | nil => intro g h; cases h
  | cons r rest ih =>
    intro g h
    unfold firstGroup at h
    cases hh : (matchToks grpToks r).head? with
    | some r2 =>
      rw [hh] at h
      injection h with h
      subst h
      exact ⟨r, r2, List.mem_of_mem_head? (by rw [hh]; rfl), rfl⟩
    | none =>
      rw [hh] at h
      exact ih g h

theorem reSearch_some (pre : List Tok) :
    ∀ (s : List Char) (g : List Char), reSearch pre grpToks s = some g →
      ∃ r r2, r2 ∈ matchToks grpToks r ∧ g = r.take (r.length - r2.length) := by
  intro s
  induction s with
  | nil =>
    intro g h
    exact firstGroup_some (matchToks pre []) g h
  | cons c rest ih =>
    intro g h
    unfold reSearch at h
    cases hm : matchAt pre grpToks (c :: rest) with
    | some g2 =>
      rw [hm] at h
      injection h with h
      subst h
      exact firstGroup_some (matchToks pre (c :: rest)) g2 hm
    | none =>
      rw [hm] at h
      exact ih g h

theorem extractCore_shape (s g : List Char) (h : extractCore s = some g) :
    ∃ ls ds, g = ls ++ ds ∧ 1 ≤ ls.length ∧ ls.length ≤ 3 ∧
      (∀ c ∈ ls, isLetterIC c = true) ∧ 3 ≤ ds.length ∧ ds.length ≤ 6 ∧
      (∀ c ∈ ds, isDigitC c = true) := by
  have hcap : ∃ r r2, r2 ∈ matchToks grpToks r ∧
      g = r.take (r.length - r2.length) := by
    unfold extractCore at h
    cases h1 : reSearch pat1pre grpToks s with
    | some g1 =>
      rw [h1] at h
      have h2 : some g1 = some g := h
      injection h2 with h2
      exact h2 ▸ reSearch_some pat1pre s g1 h1
    | none =>
      rw [h1] at h
      have hx : (reSearch pat2pre grpToks s <|> reSearch pat3pre grpToks s <|>
          reSearch pat4pre grpToks s) = some g := h
      cases h2 : reSearch pat2pre grpToks s with
      | some g2 =>
        rw [h2] at hx
        have h3 : some g2 = some g := hx
        injection h3 with h3
        exact h3 ▸ reSearch_some pat2pre s g2 h2
      | none =>
        rw [h2] at hx
        have hy : (reSearch pat3pre grpToks s <|> reSearch pat4pre grpToks s) =
            some g := hx
        cases h3 : reSearch pat3pre grpToks s with
        | some g3 =>
          rw [h3] at hy
          have h4 : some g3 = some g := hy
          injection h4 with h4
          exact h4 ▸ reSearch_some pat3pre s g3 h3
        | none =>
          rw [h3] at hy
          have hz : reSearch pat4pre grpToks s = some g := hy
          exact reSearch_some pat4pre s g hz
  obtain ⟨r, r2, hmem, rfl⟩ := hcap
  exact capture_shape r r2 hmem

/-- Uppercasing a character of the `[A-Z]`-IGNORECASE class lands in `A`-`Z`
or leaves one of the two caseless-to-upper oddities U+0130 and U+212A. -/
theorem pyUpperChar_letter (c : Char) (h : isLetterIC c = true) :
    (65 ≤ (pyUpperChar c).toNat ∧ (pyUpperChar c).toNat ≤ 90) ∨
    (pyUpperChar c).toNat = 0x130 ∨ (pyUpperChar c).toNat = 0x212A := by
  simp only [isLetterIC, Bool.or_eq_true, Bool.and_eq_true,
    decide_eq_true_eq] at h
  unfold pyUpperChar
  rcases h with ((((⟨h1, h2⟩ | ⟨h1, h2⟩) | h1) | h1) | h1) | h1
  · rw [if_neg (by simp only [Bool.and_eq_true, decide_eq_true_eq]; omega),
      if_neg (by omega),
      if_neg (by omega)]
    exact Or.inl ⟨h1, h2⟩
  · rw [if_pos (by simp only [Bool.and_eq_true, decide_eq_true_eq]; omega)]
    have hv : Nat.isValidChar (c.toNat - 32) := Or.inl (by omega)
    have hof : (Char.ofNat (c.toNat - 32)).toNat = c.toNat - 32 := by
      unfold Char.ofNat
      rw [dif_pos hv]
      rfl
    rw [hof]
    exact Or.inl (by omega)
  · rw [if_neg (by simp only [Bool.and_eq_true, decide_eq_true_eq]; omega),
      if_neg (by omega),
      if_neg (by omega)]
    exact Or.inr (Or.inl h1)
  · rw [if_neg (by simp only [Bool.and_eq_true, decide_eq_true_eq]; omega),
      if_pos (by omega)]
    exact Or.inl (by decide)
  · rw [if_neg (by simp only [Bool.and_eq_true, decide_eq_true_eq]; omega),
      if_neg (by omega),
      if_pos (by omega)]
    exact Or.inl (by decide)
  · rw [if_neg (by simp only [Bool.and_eq_true, decide_eq_true_eq]; omega),
      if_neg (by omega),
      if_neg (by omega)]
    exact Or.inr (Or.inr h1)

/-- Decimal digits are caseless: `upper()` leaves them unchanged (no Nd run
intersects the lowercase ASCII range or the two special lowercase letters). -/
theorem pyUpperChar_digit (c : Char) (h : isDigitC c = true) :
    pyUpperChar c = c := by
  have hnd : ∃ s ∈ ndStarts, (decide (s ≤ c.toNat) && decide (c.toNat ≤ s + 9))
      = true := List.any_eq_true.mp h
  obtain ⟨s, hs, hrange⟩ := hnd
  simp only [Bool.and_eq_true, decide_eq_true_eq] at hrange
  have hlow : ∀ x ∈ ndStarts, x = 48 ∨ 1632 ≤ x := by decide
  have hcase := hlow s hs
  unfold pyUpperChar
  rw [if_neg (by simp only [Bool.and_eq_true, decide_eq_true_eq]; omega),
    if_neg (by omega),
    if_neg (by omega)]

/-- Every successful extraction is one to three uppercased letters of the
`[A-Z]`-IGNORECASE class (an ASCII capital, U+0130 or U+212A) followed by
three to six Unicode decimal digits. -/
theorem extract_shape (b e : String)
    (h : extract_ticket_id_from_body (some b) = some e) :
    ∃ ls ds, e.data = ls ++ ds ∧ 1 ≤ ls.length ∧ ls.length ≤ 3 ∧
      (∀ c ∈ ls, (65 ≤ c.toNat ∧ c.toNat ≤ 90) ∨
        c.toNat = 0x130 ∨ c.toNat = 0x212A) ∧
      3 ≤ ds.length ∧ ds.length ≤ 6 ∧
      (∀ c ∈ ds, isDigitC c = true) := by
  replace h : (if b.data.isEmpty = true then none
      else (extractCore b.data).map (fun g => String.mk (g.map pyUpperChar))) =
      some e := h
  by_cases hb : b.data.isEmpty = true
  · rw [if_pos hb] at h
    cases h
  · rw [if_neg hb] at h
    cases hc : extractCore b.data with
    | none => rw [hc] at h; cases h
    | some g =>
      rw [hc] at h
      have h2 : some (String.mk (g.map pyUpperChar)) = some e := h
      injection h2 with h2
      obtain ⟨ls, ds, hg, hl1, hl3, hlet, hd3, hd6, hdig⟩ :=
        extractCore_shape b.data g hc
      refine ⟨ls.map pyUpperChar, ds.map pyUpperChar, ?_, ?_, ?_, ?_, ?_, ?_, ?_⟩
      · rw [← h2]
        show g.map pyUpperChar = ls.map pyUpperChar ++ ds.map pyUpperChar
        rw [hg, List.map_append]
      · simp [hl1]
      · simp [hl3]
      · intro c hc2
        obtain ⟨c0, hc0, rfl⟩ := List.mem_map.mp hc2
        exact pyUpperChar_letter c0 (hlet c0 hc0)
      · simp [hd3]
      · simp [hd6]
      · intro c hc2
        obtain ⟨c0, hc0, rfl⟩ := List.mem_map.mp hc2
        rw [pyUpperChar_digit c0 (hdig c0 hc0)]
        exact hdig c0 hc0

/-- A successfully extracted id is never the empty string. -/
theorem extract_some_nonempty (b e : String)
    (h : extract_ticket_id_from_body (some b) = some e) : e.isEmpty = false := by
  obtain ⟨ls, ds, hdata, hl1, _, _, _, _, _⟩ := extract_shape b e h
  have hlen : 1 ≤ e.data.length := by
    rw [hdata, List.length_append]
    omega
  cases he : e.isEmpty with
  | false => rfl
  | true =>
    exfalso
    have he2 : e = "" := (String.isEmpty_iff e).mp he
    rw [he2] at hlen
    simp at hlen

/-- A hit in the id-based stage means the final `ticket_id` looks up to the
resolved ticket. -/
theorem resolve_stage1_get (db : DB) (p : Payload) (t : Ticket) (tid : String)
    (h : resolve_stage1 db p = (some t, tid)) :
    get_ticket_by_id db tid = some t := by
  cases hg0 : get_ticket_by_id db (payload_tid0 p) with
  | some t0 =>
    simp only [resolve_stage1, hg0] at h
    rw [Prod.mk.injEq] at h
    obtain ⟨h1, h2⟩ := h
    injection h1 with h1
    subst h1
    subst h2
    exact hg0
  | none =>
    by_cases hc : (extractedTruthy p && !(payload_original p).isEmpty) = true
    · cases hg1 : get_ticket_by_id db (payload_original p) with
      | some t1 =>
        simp only [resolve_stage1, hg0, hc, if_true, hg1] at h
        rw [Prod.mk.injEq] at h
        obtain ⟨h1, h2⟩ := h
        injection h1 with h1
        subst h1
        subst h2
        exact hg1
      | none =>
        simp only [resolve_stage1, hg0, hc, if_true, hg1] at h
        rw [Prod.mk.injEq] at h
        exact absurd h.1 (by simp)
    · simp only [resolve_stage1, hg0] at h
      rw [if_neg hc, Prod.mk.injEq] at h
      exact absurd h.1 (by simp)

/-- An id-stage hit propagates unchanged to the full resolution. -/
theorem resolve_ticket_of_stage1 (db : DB) (p : Payload) (t : Ticket)
    (tid : String) (h : resolve_stage1 db p = (some t, tid)) :
    resolve_ticket db p = (some t, tid) := by
  unfold resolve_ticket
  rw [h]

/-- Whatever path resolution succeeds by, the final `ticket_id` denotes a
record present in the store. -/
theorem resolve_ticket_some_get (db : DB) (p : Payload) (t : Ticket)
    (tid : String) (h : resolve_ticket db p = (some t, tid)) :
    ∃ t2, get_ticket_by_id db tid = some t2 := by
  unfold resolve_ticket at h
  cases hs : resolve_stage1 db p with
  | mk o tid1 =>
    cases o with
    | some t1 =>
      rw [hs] at h
      rw [Prod.mk.injEq] at h
      obtain ⟨h1, h2⟩ := h
      injection h1 with h1
      subst h1
      subst h2
      exact ⟨t1, resolve_stage1_get db p t1 tid1 hs⟩
    | none =>
      rw [hs] at h
      dsimp only at h
      by_cases he : (!(payload_email p).isEmpty) = true
      · cases hle : latest_ticket_by_email db (payload_email p) with
        | some t2 =>
          rw [if_pos he, hle] at h
          rw [Prod.mk.injEq] at h
          obtain ⟨h1, h2⟩ := h
          injection h1 with h1
          subst h1
          subst h2
          have hmem := (latest_ticket_by_email_spec db (payload_email p) t2 hle).1
          have hsome : (db.tickets.find? (fun x => x.ticket_id == t2.ticket_id)).isSome := by
            rw [List.find?_isSome]
            exact ⟨t2, hmem, by simp⟩
          obtain ⟨t3, ht3⟩ := Option.isSome_iff_exists.mp hsome
          exact ⟨t3, ht3⟩
        | none =>
          rw [if_pos he, hle] at h
          rw [Prod.mk.injEq] at h
          exact absurd h.1 (by simp)
      · rw [if_neg he] at h
        rw [Prod.mk.injEq] at h
        exact absurd h.1 (by simp)

/-! ### Claim theorems about reconciliation and ticket creation -/

/-- C7: ticket-code extraction on the spec's example bodies, on the optional
prefixes, and with case normalisation: `"...ticket #AB1234..."` yields
`AB1234`; `"Ticket ID: xy99887"` yields `XY99887`; the `regarding ticket` and
bare `#` prefixes work; a body without a code yields nothing. -/
theorem C7_extraction_examples :
    extract_ticket_id_from_body (some "...ticket #AB1234...") = some "AB1234" ∧
    extract_ticket_id_from_body (some "Ticket ID: xy99887") = some "XY99887" ∧
    extract_ticket_id_from_body (some "regarding ticket AB1234") = some "AB1234" ∧
    extract_ticket_id_from_body (some "#ab1234") = some "AB1234" ∧
    extract_ticket_id_from_body (some "no code here") = none := by
  refine ⟨?_, ?_, ?_, ?_, ?_⟩ <;> decide

/-- C10 (counterexample): the patterns run with Python 3 Unicode semantics,
so the claimed ASCII-only shape is false of the program.  The body
`"#K123"` with KELVIN SIGN (U+212A, which `[A-Z]` matches under
`IGNORECASE` and `upper()` leaves unchanged) extracts to a string whose
first character is neither an uppercase ASCII letter nor a digit; the body
`"#AB" ++ three ARABIC-INDIC digits` extracts to a string whose digit part
lies outside ASCII `0`-`9`. -/
theorem C10_counterexample_unicode_shapes :
    extract_ticket_id_from_body (some "#\u212A123") = some "\u212A123" ∧
    "\u212A123".data.map Char.toNat = [0x212A, 49, 50, 51] ∧
    ¬(65 ≤ 0x212A ∧ 0x212A ≤ 90) ∧ ¬(48 ≤ 0x212A ∧ 0x212A ≤ 57) ∧
    extract_ticket_id_from_body (some "#AB\u0660\u0661\u0662") =
      some "AB\u0660\u0661\u0662" ∧
    "AB\u0660\u0661\u0662".data.map Char.toNat =
      [65, 66, 0x660, 0x661, 0x662] ∧
    ¬(48 ≤ 0x660 ∧ 0x660 ≤ 57) := by
  refine ⟨?_, ?_, ?_, ?_, ?_, ?_, ?_⟩ <;> decide

/-- C10 (amended): for every input — `none`, the empty string, or any other
string — extraction returns `none` or a code of one to three uppercased
letters of the `IGNORECASE` class of `[A-Z]` (an ASCII capital letter,
U+0130 or U+212A) followed by three to six Unicode decimal digits; the
embedding is total, so no exception path exists. -/
theorem C10_extraction_total_shape :
    ∀ body : Option String,
      extract_ticket_id_from_body body = none ∨
      ∃ e ls ds, extract_ticket_id_from_body body = some e ∧
        e.data = ls ++ ds ∧
        1 ≤ ls.length ∧ ls.length ≤ 3 ∧
        (∀ c ∈ ls, (65 ≤ c.toNat ∧ c.toNat ≤ 90) ∨
          c.toNat = 0x130 ∨ c.toNat = 0x212A) ∧
        3 ≤ ds.length ∧ ds.length ≤ 6 ∧
        (∀ c ∈ ds, isDigitC c = true) := by
  intro body
  cases body with
  | none => exact Or.inl rfl
  | some b =>
    cases h : extract_ticket_id_from_body (some b) with
    | none => exact Or.inl rfl
    | some e =>
      obtain ⟨ls, ds, h1, h2, h3, h4, h5, h6, h7⟩ := extract_shape b e h
      exact Or.inr ⟨e, ls, ds, rfl, h1, h2, h3, h4, h5, h6, h7⟩

/-- C2 (counterexample): on the exact scenario payload the handler performs
no store mutation at all: the payload carries no `ai_response`/`draft`, so
the `if ticket_id and ai_response` guard fails — and independently the
extraction pattern (1-3 letters then 3-6 digits) cannot match `M3F9A2`, and
the claimed id is empty, so `ticket_id` is empty too.  No reply is inserted,
the ticket keeps status `Open`, and the response names no ticket and carries
no `created` flag, contradicting the claimed reply insert, status change and
`(M3F9A2, created=False)` return. -/
theorem C2_counterexample_no_reply_inserted :
    (display_response pC2 dbC2).1 = dbC2 ∧
    (display_response pC2 dbC2).1.replies = [] ∧
    (get_ticket_by_id (display_response pC2 dbC2).1 "M3F9A2").map Ticket.status =
      some "Open" ∧
    extract_ticket_id_from_body (some "regarding ticket #M3F9A2") = none ∧
    (display_response pC2 dbC2).2.1 = [] ∧
    (display_response pC2 dbC2).2.2 =
      { success := true,
        message := "AI response received (no ticket_id provided)",
        ticket_id := none, customer_reply_saved := none, http_code := 200 } := by
  refine ⟨?_, ?_, ?_, ?_, ?_, ?_⟩ <;> decide

/-- C2 (amended): supplying the ticket id in the payload's `ticket_id` field
(the body pattern `M3F9A2` is unmatchable) together with a non-empty AI
draft, the handler inserts a Reply for `M3F9A2` carrying the payload's body
text, sets the ticket's status to `Customer Replied`, and answers success
with `ticket_id = M3F9A2` and `customer_reply_saved = True` (there is no
`created` flag; no ticket is created). -/
theorem C2_amended_claimed_id_with_draft :
    ∀ (db : DB) (t : Ticket),
      get_ticket_by_id db "M3F9A2" = some t →
      (display_response pC2A db).2.1 =
        [DbEv.evCreateReply (mkReply pC2A "M3F9A2"),
         DbEv.evUpdateTicket "M3F9A2" statusUpd,
         DbEv.evUpdateTicket "M3F9A2" (draftUpd "We are looking into it.")] ∧
      mkReply pC2A "M3F9A2" =
        { ticket_id := "M3F9A2", message := "regarding ticket #M3F9A2",
          sender_name := "a@b.com", sender_email := "a@b.com",
          sender_type := "customer", is_customer := true } ∧
      (display_response pC2A db).1.replies =
        db.replies ++ [mkReply pC2A "M3F9A2"] ∧
      get_ticket_by_id (display_response pC2A db).1 "M3F9A2" =
        some (applyUpd (draftUpd "We are looking into it.")
          (applyUpd statusUpd t)) ∧
      (applyUpd (draftUpd "We are looking into it.")
          (applyUpd statusUpd t)).status = "Customer Replied" ∧
      (display_response pC2A db).1.tickets.length = db.tickets.length ∧
      (display_response pC2A db).2.2 =
        { success := true, message := "AI response saved to ticket",
          ticket_id := some "M3F9A2", customer_reply_saved := some true,
          http_code := 200 } := by
  intro db t hget
  have hA : (payload_tid0 pC2A).isEmpty = false := by decide
  have hB : (payload_ai pC2A).isEmpty = false := by decide
  have hC : (payload_customer_message pC2A).isEmpty = false := by decide
  have hD : (payload_email pC2A).isEmpty = false := by decide
  have htid : payload_tid0 pC2A = "M3F9A2" := by decide
  have hai : payload_ai pC2A = "We are looking into it." := by decide
  have hs1 : resolve_stage1 db pC2A = (some t, "M3F9A2") := by
    unfold resolve_stage1
    rw [htid, hget]
  have hres : resolve_ticket db pC2A = (some t, "M3F9A2") :=
    resolve_ticket_of_stage1 db pC2A t "M3F9A2" hs1
  have heq := display_response_saveReply_eq pC2A db t t "M3F9A2" hA hB hres hC hD hget
  rw [hai] at heq
  obtain ⟨hm1, hg2, hrep2, hlen2⟩ :=
    update_ticket_spec (create_reply db (mkReply pC2A "M3F9A2")) "M3F9A2"
      statusUpd t hget
  obtain ⟨hm2, hg3, hrep3, hlen3⟩ :=
    update_ticket_spec _ "M3F9A2" (draftUpd "We are looking into it.") _ hg2
  refine ⟨by rw [heq], by decide, ?_, ?_, rfl, ?_, by rw [heq]⟩
  · rw [heq]
    show (update_ticket
        (update_ticket (create_reply db (mkReply pC2A "M3F9A2")) "M3F9A2"
          statusUpd).1 "M3F9A2" (draftUpd "We are looking into it.")).1.replies =
      db.replies ++ [mkReply pC2A "M3F9A2"]
    rw [hrep3, hrep2, create_reply_replies]
  · rw [heq]
    exact hg3
  · rw [heq]
    show (update_ticket
        (update_ticket (create_reply db (mkReply pC2A "M3F9A2")) "M3F9A2"
          statusUpd).1 "M3F9A2"
        (draftUpd "We are looking into it.")).1.tickets.length =
      db.tickets.length
    rw [hlen3, hlen2]
    rfl

/-- C2 (witness for the amended theorem, on the scenario store). -/
theorem C2_amended_claimed_id_with_draft_witness :
    (display_response pC2A dbC2).2.1 =
      [DbEv.evCreateReply (mkReply pC2A "M3F9A2"),
       DbEv.evUpdateTicket "M3F9A2" statusUpd,
       DbEv.evUpdateTicket "M3F9A2" (draftUpd "We are looking into it.")] ∧
    mkReply pC2A "M3F9A2" =
      { ticket_id := "M3F9A2", message := "regarding ticket #M3F9A2",
        sender_name := "a@b.com", sender_email := "a@b.com",
        sender_type := "customer", is_customer := true } ∧
    (display_response pC2A dbC2).1.replies =
      dbC2.replies ++ [mkReply pC2A "M3F9A2"] ∧
    get_ticket_by_id (display_response pC2A dbC2).1 "M3F9A2" =
      some (applyUpd (draftUpd "We are looking into it.")
        (applyUpd statusUpd tC2)) ∧
    (applyUpd (draftUpd "We are looking into it.")
        (applyUpd statusUpd tC2)).status = "Customer Replied" ∧
    (display_response pC2A dbC2).1.tickets.length = dbC2.tickets.length ∧
    (display_response pC2A dbC2).2.2 =
      { success := true, message := "AI response saved to ticket",
        ticket_id := some "M3F9A2", customer_reply_saved := some true,
        http_code := 200 } :=
  C2_amended_claimed_id_with_draft dbC2 tC2 (by decide)

/-- C6: reconciliation applies its rules in order with first match winning:
an extracted body code that resolves to a stored ticket wins regardless of
any email match; the email fallback is consulted only when neither the
extracted-or-claimed id nor the claimed-id retry resolves and a sender email
is present, and it selects a most recently created ticket with exactly that
email address. -/
theorem C6_reconciliation_order :
    (∀ (db : DB) (p : Payload) (e : String) (t : Ticket),
      extract_ticket_id_from_body (some (payload_body p)) = some e →
      get_ticket_by_id db e = some t →
      resolve_ticket db p = (some t, e)) ∧
    (∀ (db : DB) (p : Payload),
      get_ticket_by_id db (payload_tid0 p) = none →
      get_ticket_by_id db (payload_original p) = none →
      (payload_email p).isEmpty = false →
      resolve_ticket db p =
        (match latest_ticket_by_email db (payload_email p) with
         | some t => (some t, t.ticket_id)
         | none => ((none : Option Ticket), payload_tid0 p))) ∧
    (∀ (db : DB) (e : String) (t : Ticket),
      latest_ticket_by_email db e = some t →
      t.email = e ∧ ∀ u ∈ db.tickets, u.email = e →
        u.created_at ≤ t.created_at) := by
  refine ⟨?_, ?_, ?_⟩
  · intro db p e t hext hget
    have hne : e.isEmpty = false := extract_some_nonempty (payload_body p) e hext
    have htid0 : payload_tid0 p = e := by
      unfold payload_tid0
      rw [hext]
      dsimp only
      rw [if_neg (by simp [hne])]
    have hs1 : resolve_stage1 db p = (some t, e) := by
      unfold resolve_stage1
      rw [htid0, hget]
    exact resolve_ticket_of_stage1 db p t e hs1
  · intro db p hg0 hg1 he
    have hs1 : resolve_stage1 db p = ((none : Option Ticket), payload_tid0 p) := by
      unfold resolve_stage1
      rw [hg0]
      by_cases hc : (extractedTruthy p && !(payload_original p).isEmpty) = true
      · rw [if_pos hc, hg1]
      · rw [if_neg hc]
    unfold resolve_ticket
    rw [hs1]
    dsimp only
    rw [if_pos (by simp [he])]
  · intro db e t h
    obtain ⟨_, h2, h3⟩ := latest_ticket_by_email_spec db e t h
    exact ⟨h2, h3⟩

/-- C6 (witness): the extracted code `EE3295` wins although a ticket with the
sender's email address also exists. -/
theorem C6_reconciliation_order_witness :
    resolve_ticket dbC6 pC6 = (some tC6a, "EE3295") :=
  C6_reconciliation_order.1 dbC6 pC6 "EE3295" tC6a (by decide) (by decide)

/-- C8 (counterexample): a payload that resolves to a stored ticket by its
claimed id and carries a non-empty customer message distinct from the agent
draft, but no sender address (`from` and `customer_email` both absent): the
guard `if customer_message and customer_email and ticket` skips the reply
insert, yet the handler still issues the draft ticket update and answers
success — the ticket record is updated without any reply having been
inserted first, contradicting the claim. -/
theorem C8_counterexample_no_reply_without_sender_address :
    resolve_ticket dbC8 pC8X = (some tC8, "EE3295") ∧
    payload_customer_message pC8X = "still broken" ∧
    payload_customer_message pC8X ≠ payload_ai pC8X ∧
    (display_response pC8X dbC8).2.1 =
      [DbEv.evUpdateTicket "EE3295" (draftUpd "Draft reply.")] ∧
    (display_response pC8X dbC8).1.replies = [] ∧
    (display_response pC8X dbC8).2.2.customer_reply_saved = some false ∧
    (display_response pC8X dbC8).2.2.http_code = 200 := by
  refine ⟨?_, ?_, ?_, ?_, ?_, ?_, ?_⟩ <;> decide

/-- C8 (amended): whenever the payload resolves to a stored ticket and
carries a non-empty customer message distinct from the agent draft *and a
non-empty sender address* (the code's guard additionally requires
`customer_email`), the handler issues exactly the reply insert followed by
the status update and then the draft update — the insert strictly precedes
every ticket update in the issued operation sequence — and the reply is
present in the final store. -/
theorem C8_reply_insert_before_ticket_update :
    ∀ (db : DB) (p : Payload) (t : Ticket) (tid : String),
      resolve_ticket db p = (some t, tid) →
      (payload_tid0 p).isEmpty = false →
      (payload_ai p).isEmpty = false →
      (payload_customer_message p).isEmpty = false →
      (payload_email p).isEmpty = false →
      payload_customer_message p ≠ payload_ai p →
      (display_response p db).2.1 =
        [DbEv.evCreateReply (mkReply p tid), DbEv.evUpdateTicket tid statusUpd,
         DbEv.evUpdateTicket tid (draftUpd (payload_ai p))] ∧
      (mkReply p tid).message = payload_customer_message p ∧
      mkReply p tid ∈ (display_response p db).1.replies := by
  intro db p t tid hres hA hB hC hD _hdist
  obtain ⟨t2, hget⟩ := resolve_ticket_some_get db p t tid hres
  have heq := display_response_saveReply_eq p db t t2 tid hA hB hres hC hD hget
  obtain ⟨_, hg2, hrep2, _⟩ :=
    update_ticket_spec (create_reply db (mkReply p tid)) tid statusUpd t2 hget
  obtain ⟨_, _, hrep3, _⟩ :=
    update_ticket_spec _ tid (draftUpd (payload_ai p)) _ hg2
  refine ⟨by rw [heq], rfl, ?_⟩
  rw [heq]
  show mkReply p tid ∈ (update_ticket
      (update_ticket (create_reply db (mkReply p tid)) tid statusUpd).1 tid
      (draftUpd (payload_ai p))).1.replies
  rw [hrep3, hrep2, create_reply_replies]
  exact List.mem_append_right _ (List.mem_singleton_self _)

/-- C8 (witness). -/
theorem C8_reply_insert_before_ticket_update_witness :
    (display_response pC8 dbC8).2.1 =
      [DbEv.evCreateReply (mkReply pC8 "EE3295"),
       DbEv.evUpdateTicket "EE3295" statusUpd,
       DbEv.evUpdateTicket "EE3295" (draftUpd (payload_ai pC8))] ∧
    (mkReply pC8 "EE3295").message = payload_customer_message pC8 ∧
    mkReply pC8 "EE3295" ∈ (display_response pC8 dbC8).1.replies :=
  C8_reply_insert_before_ticket_update dbC8 pC8 tC8 "EE3295" (by decide)
    (by decide) (by decide) (by decide) (by decide) (by decide)

/-- C5: inserting a record whose `thread_id` is already owned by a stored
ticket is rejected as a duplicate-thread conflict, the store is unchanged (no
second row with that `thread_id`), and the handler catches exactly that
conflict, re-resolves the existing ticket by thread id, and answers
`Ticket already exists` carrying the existing ticket's code with a success
response rather than a generic failure. -/
theorem C5_duplicate_thread_conflict :
    ∀ (db : DB) (t ex : Ticket),
      ex ∈ db.tickets → ex.thread_id = t.thread_id →
      db_create_ticket db t = Except.error (DbErr.dupThread t.thread_id) ∧
      (create_ticket_webhook db t).1 = db ∧
      countThread (create_ticket_webhook db t).1 t.thread_id =
        countThread db t.thread_id ∧
      ∃ existing,
        find_one_by_thread db t.thread_id = some existing ∧
        existing.thread_id = t.thread_id ∧
        (create_ticket_webhook db t).2 =
          { success := true, message := "Ticket already exists",
            ticket_id := some existing.ticket_id, http_code := 200 } := by
  intro db t ex hmem hth
  have hany : (db.tickets.any (fun u => u.thread_id == t.thread_id)) = true := by
    rw [List.any_eq_true]
    exact ⟨ex, hmem, by simp [hth]⟩
  have hcreate : db_create_ticket db t =
      Except.error (DbErr.dupThread t.thread_id) := by
    unfold db_create_ticket
    rw [if_pos hany]
  have hfind : (db.tickets.find? (fun u => u.thread_id == t.thread_id)).isSome := by
    rw [List.find?_isSome]
    exact ⟨ex, hmem, by simp [hth]⟩
  obtain ⟨existing, hex⟩ := Option.isSome_iff_exists.mp hfind
  have hpex := List.find?_some hex
  have hexth : existing.thread_id = t.thread_id := eq_of_beq hpex
  have hfind2 : find_one_by_thread db t.thread_id = some existing := hex
  have hweb : create_ticket_webhook db t =
      (db, { success := true, message := "Ticket already exists",
             ticket_id := some existing.ticket_id, http_code := 200 }) := by
    unfold create_ticket_webhook
    rw [hcreate]
    dsimp only
    rw [hfind2]
  exact ⟨hcreate, by rw [hweb], by rw [hweb], existing, hfind2, hexth,
    by rw [hweb]⟩

/-- C5 (witness). -/
theorem C5_duplicate_thread_conflict_witness :
    db_create_ticket dbC5 tC5 = Except.error (DbErr.dupThread "thX") ∧
    (create_ticket_webhook dbC5 tC5).1 = dbC5 ∧
    countThread (create_ticket_webhook dbC5 tC5).1 "thX" =
      countThread dbC5 "thX" ∧
    ∃ existing,
      find_one_by_thread dbC5 "thX" = some existing ∧
      existing.thread_id = "thX" ∧
      (create_ticket_webhook dbC5 tC5).2 =
        { success := true, message := "Ticket already exists",
          ticket_id := some existing.ticket_id, http_code := 200 } :=
  C5_duplicate_thread_conflict dbC5 tC5 exC5 (List.mem_cons_self _ _) rfl

end AutoAssist
